import Mathlib

set_option autoImplicit false

namespace Kortex

/-!
Shallow embedding of the Kortex backend (joaocassanji/Kortex).

The embedding covers the parts of the code the claims are about:

* `FixWorkflowService._run_workflow` (`app/services/workflow_service.py`),
  modelled as the function `runWorkflow` over an environment of external-call
  outcomes, producing the final store state together with an ordered event
  trace (status writes, adapter calls, observer callbacks).
* `VClusterAdapter.create_shadow_env` / `destroy_shadow_env`
  (`app/adapters/simulation_adapter.py`), modelled as `create_shadow_env`
  over a world of filesystem/process observations.
* `KubernetesAdapter.apply_manifest` (`app/adapters/k8s_adapter.py`),
  modelled as `apply_manifest` over the kubectl subprocess outcome.
* `ScanService._run_scan` (`app/services/scan_service.py`), modelled as
  `runScan` over a scan configuration (fetched resources, per-namespace AI
  outcomes, an optional cooperative-cancellation point).
* `CryptoAuditAdapter` (`app/adapters/audit_adapter.py`), modelled with
  ideal (symbolic) hash and signature primitives: SHA-256 and RSA-PSS are
  represented by injective constructors over their inputs, the standard
  collision-free model for tamper-evidence arguments.

Python strings, log lines and statuses are Lean `String`s; Python dicts that
the claims depend on (resource-status maps, snapshots) are association lists
with in-place update (`updA`), matching dict insertion-order semantics.
-/

/-! ## String helpers: Python `sub in s` and `s.lower()` -/

/-- Whether `p` is a prefix of `l` (used to define Python's substring test). -/
def isPref : List Char → List Char → Bool
  | [], _ => true
  | _ :: _, [] => false
  | a :: as, b :: bs => a == b && isPref as bs

/-- Whether `sub` occurs as a contiguous substring of the second list. -/
def containsSub (sub : List Char) : List Char → Bool
  | [] => sub.isEmpty
  | c :: rest => isPref sub (c :: rest) || containsSub sub rest

/-- Python `sub in s` on strings. -/
def pyIn (sub s : String) : Bool := containsSub sub.data s.data

/-- Python `s.lower()` (ASCII-adequate for the severity keywords involved). -/
def pyLower (s : String) : String := ⟨s.data.map Char.toLower⟩

/-! ## Workflow statuses and events (`workflow_service.py`) -/

/-- The strings written to `workflow_store[workflow_id]["status"]`.
`starting` is the code's `"initializing"`, the others keep the code's
names (`"step_1_create_vcluster"`, ..., `"completed"`, `"failed"`). -/
inductive WStatus where
  | starting
  | step_1_create_vcluster
  | step_2_analysis
  | step_3_apply_vcluster
  | step_4_validate_vcluster
  | step_5_apply_real
  | step_6_final_validate
  | completed
  | failed
deriving DecidableEq, Repr

/-- Observable events of one `_run_workflow` execution, in program order:
status-field writes, shadow-env create/destroy calls, `apply_manifest`
calls against the vcluster and against the real cluster, and invocations
of the `on_workflow_complete` observer callback (with the status it sees). -/
inductive WEvent where
  | status (s : WStatus)
  | createCall (ok : Bool)
  | applyShadowCall
  | applyRealCall
  | destroyCall (ok : Bool)
  | notify (s : WStatus)
deriving DecidableEq, Repr

/-- Outcomes of every external call `_run_workflow` makes, in program order.
`Except.error m` models the call raising an exception whose message is `m`;
`Except.ok` carries the value the Python call returns.  The callback is
assumed to return normally (it is an observer, not a phase). -/
structure WorkflowEnv where
  /-- `self.cluster_registry.get(cluster_id)` returns a live adapter. -/
  adapterFound : Bool
  /-- `sim_adapter.create_shadow_env(...)`: shadow cluster id, or raise. -/
  createResult : Except String String
  /-- successive `vcluster_adapter.check_connection()` results. -/
  connCheck : Nat → Bool
  /-- `target_adapter.list_resources()` succeeds. -/
  listTargetOk : Bool
  /-- the target resource is found in the listed resources. -/
  resourceFound : Bool
  /-- `llm_adapter.generate_remediation(...)`: description, or raise. -/
  remediationResult : Except String String
  /-- `vcluster_adapter.apply_manifest(...)`: returned Bool, or raise. -/
  applyShadowResult : Except String Bool
  /-- `vcluster_adapter.list_resources()` succeeds. -/
  listShadowOk : Bool
  /-- the fixed resource is found again inside the vcluster. -/
  vResFound : Bool
  /-- `llm_adapter.analyze_context(...)`: narrative summary, or raise. -/
  analyzeShadowResult : Except String String
  /-- `target_adapter.apply_manifest(...)`: returned Bool, or raise. -/
  applyRealResult : Except String Bool
  /-- final `target_adapter.list_resources()` succeeds. -/
  listFinalOk : Bool
  /-- `llm_adapter.analyze_resource(...)`: summary, or raise. -/
  analyzeFinalResult : Except String String
  /-- `sim_adapter.destroy_shadow_env(vid)` in the cleanup block. -/
  destroyResult : Except String Unit
  /-- `self.on_workflow_complete` is not `None`. -/
  hasCallback : Bool

/-- The connectivity wait loop (`for i in range(10): if check: break; log; sleep`)
followed by the post-loop `check_connection()` call.  Returns the number of
"Waiting for vcluster connectivity..." log lines and the deciding check. -/
def connWait (check : Nat → Bool) : Nat → Nat → Nat × Bool
  | 0, i => (i, check i)
  | fuel + 1, i => if check i then (i, check (i + 1)) else connWait check fuel (i + 1)

/-- The promotion safety gate of step 4:
`"high" in summary.lower() or "critical" in summary.lower()`. -/
def gateTrips (summary : String) : Bool :=
  pyIn "high" (pyLower summary) || pyIn "critical" (pyLower summary)

/-- Result of the `try:` body of `_run_workflow`: events and log lines so far,
last written status, the recorded vcluster id (`state["vcluster_id"]`), and
`some msg` when the body raised an exception with message `msg`. -/
structure TryResult where
  events : List WEvent
  logs : List String
  status : WStatus
  vid : Option String
  err : Option String
deriving Repr

/-- The `try:` body of `FixWorkflowService._run_workflow`, phase by phase.
Exception messages follow the raise sites; the f-string identifiers they
interpolate are abstracted away, keeping the fixed message text. -/
def tryBody (env : WorkflowEnv) : TryResult :=
  if ¬ env.adapterFound then
    { events := [], logs := [], status := .starting, vid := none,
      err := some "Target cluster disconnected or not found in registry" }
  else
    let ev1 : List WEvent := [.status .step_1_create_vcluster]
    let lg1 : List String := ["Step 1: Creating VCluster environment inside target cluster..."]
    match env.createResult with
    | .error m =>
      { events := ev1 ++ [.createCall false], logs := lg1,
        status := .step_1_create_vcluster, vid := none, err := some m }
    | .ok vcid =>
      let ev2 := ev1 ++ [.createCall true]
      let lg2 := lg1 ++ ["VCluster " ++ vcid ++ " created successfully with isolation."]
      let w := connWait env.connCheck 10 0
      let lg3 := lg2 ++ List.replicate w.1 "Waiting for vcluster connectivity..."
      if ¬ w.2 then
        { events := ev2, logs := lg3, status := .step_1_create_vcluster,
          vid := some vcid, err := some "Could not connect to VCluster after creation" }
      else
        let lg4 := lg3 ++ ["VCluster Connected."]
        let ev3 := ev2 ++ [.status .step_2_analysis]
        let lg5 := lg4 ++ ["Step 2: Analyzing resource and generating AI fix..."]
        if ¬ env.listTargetOk then
          { events := ev3, logs := lg5, status := .step_2_analysis,
            vid := some vcid, err := some "list_resources failed" }
        else if ¬ env.resourceFound then
          { events := ev3, logs := lg5, status := .step_2_analysis,
            vid := some vcid, err := some "Resource not found in target cluster" }
        else
          match env.remediationResult with
          | .error m =>
            { events := ev3, logs := lg5, status := .step_2_analysis,
              vid := some vcid, err := some m }
          | .ok desc =>
            let lg6 := lg5 ++ ["AI Generated Remediation: " ++ desc]
            let ev4 := ev3 ++ [.status .step_3_apply_vcluster]
            let lg7 := lg6 ++ ["Step 3: Applying fix to VCluster for validation..."]
            match env.applyShadowResult with
            | .error m =>
              { events := ev4 ++ [.applyShadowCall], logs := lg7,
                status := .step_3_apply_vcluster, vid := some vcid, err := some m }
            | .ok success =>
              let ev5 := ev4 ++ [.applyShadowCall]
              if ¬ success then
                { events := ev5, logs := lg7, status := .step_3_apply_vcluster,
                  vid := some vcid, err := some "Failed to apply fix to VCluster" }
              else
                let lg8 := lg7 ++ ["Fix applied to VCluster. Running validation scan..."]
                let ev6 := ev5 ++ [.status .step_4_validate_vcluster]
                if ¬ env.listShadowOk then
                  { events := ev6, logs := lg8, status := .step_4_validate_vcluster,
                    vid := some vcid, err := some "list_resources failed" }
                else
                  let lg9 := lg8 ++
                    (if env.vResFound then []
                     else ["Warning: Resource not found in VCluster after apply. Check Namespace?"])
                  match env.analyzeShadowResult with
                  | .error m =>
                    { events := ev6, logs := lg9, status := .step_4_validate_vcluster,
                      vid := some vcid, err := some m }
                  | .ok summary =>
                    let lg10 := lg9 ++ ["VCluster Safety Analysis: " ++ summary]
                    if gateTrips summary then
                      { events := ev6,
                        logs := lg10 ++ ["VCluster validation flagged potential issues. Aborting real deployment."],
                        status := .step_4_validate_vcluster, vid := some vcid,
                        err := some "VCluster validation failed due to high severity risks detected." }
                    else
                      let lg11 := lg10 ++ ["VCluster validation PASSED. Proceeding to Real Cluster..."]
                      let ev7 := ev6 ++ [.status .step_5_apply_real]
                      let lg12 := lg11 ++ ["Step 5: Applying fix to Production/Real Cluster..."]
                      match env.applyRealResult with
                      | .error m =>
                        { events := ev7 ++ [.applyRealCall], logs := lg12,
                          status := .step_5_apply_real, vid := some vcid, err := some m }
                      | .ok rsuccess =>
                        let ev8 := ev7 ++ [.applyRealCall]
                        if ¬ rsuccess then
                          { events := ev8, logs := lg12, status := .step_5_apply_real,
                            vid := some vcid, err := some "Failed to apply to Real Cluster" }
                        else
                          let lg13 := lg12 ++ ["Fix applied to Real Cluster. Final Validation..."]
                          let ev9 := ev8 ++ [.status .step_6_final_validate]
                          if ¬ env.listFinalOk then
                            { events := ev9, logs := lg13, status := .step_6_final_validate,
                              vid := some vcid, err := some "list_resources failed" }
                          else
                            match env.analyzeFinalResult with
                            | .error m =>
                              { events := ev9, logs := lg13, status := .step_6_final_validate,
                                vid := some vcid, err := some m }
                            | .ok _ =>
                              let lg14 := lg13 ++
                                ["Detailed post-fix analysis complete.", "Process Finished Successfully."]
                              let ev10 := ev9 ++ [.status .completed]
                              let ev11 := if env.hasCallback then ev10 ++ [.notify .completed] else ev10
                              { events := ev11, logs := lg14, status := .completed,
                                vid := some vcid, err := none }

/-- Final store state and event trace of one `_run_workflow` run. -/
structure WRun where
  events : List WEvent
  logs : List String
  status : WStatus
deriving Repr

/-- `FixWorkflowService._run_workflow`: the `try:` body of `tryBody`, then the
`except:` clause (status `failed` plus a diagnostic log line whose text keeps
the exception message; the Python line interpolates `repr(e)` and a traceback),
then the `finally:` clause (destroy the vcluster exactly when one was created,
logging but swallowing destroy errors, then the observer callback). -/
def runWorkflow (env : WorkflowEnv) : WRun :=
  let t := tryBody env
  let evE := match t.err with
    | none => t.events
    | some _ => t.events ++ [.status .failed]
  let lgE := match t.err with
    | none => t.logs
    | some m => t.logs ++ ["CRITICAL ERROR: " ++ m]
  let stE := match t.err with
    | none => t.status
    | some _ => .failed
  let evF := match t.vid with
    | none => evE
    | some _ =>
      match env.destroyResult with
      | .ok _ => evE ++ [.destroyCall true]
      | .error _ => evE ++ [.destroyCall false]
  let lgF := match t.vid with
    | none => lgE
    | some vcid =>
      let lgD := lgE ++ ["Automatic Cleanup: Destroying VCluster " ++ vcid ++ "..."]
      match env.destroyResult with
      | .ok _ => lgD ++ ["VCluster destroyed successfully."]
      | .error m => lgD ++ ["Warning during cleanup: " ++ m]
  let evN := if env.hasCallback then evF ++ [.notify stE] else evF
  { events := evN, logs := lgF, status := stE }

/-- The successive values of the `status` field of the workflow store,
starting from the `"initializing"` written by `start_fix_workflow`. -/
def statusTrace (env : WorkflowEnv) : List WStatus :=
  .starting :: (runWorkflow env).events.filterMap fun e =>
    match e with
    | .status s => some s
    | _ => none

/-- Successor in the fixed phase order of the workflow state machine. -/
def nextPhase : WStatus → Option WStatus
  | .starting => some .step_1_create_vcluster
  | .step_1_create_vcluster => some .step_2_analysis
  | .step_2_analysis => some .step_3_apply_vcluster
  | .step_3_apply_vcluster => some .step_4_validate_vcluster
  | .step_4_validate_vcluster => some .step_5_apply_real
  | .step_5_apply_real => some .step_6_final_validate
  | .step_6_final_validate => some .completed
  | .completed => none
  | .failed => none

/-- One admissible status transition: the next phase in the fixed order, or a
jump to `failed` from a non-terminal status.  Terminal statuses admit none. -/
def stepOkB (a b : WStatus) : Bool :=
  nextPhase a == some b ||
    (b == .failed && ¬ (a == .completed) && ¬ (a == .failed))

/-- Every adjacent pair of a status list is an admissible transition. -/
def chainOkB : List WStatus → Bool
  | [] => true
  | [_] => true
  | a :: b :: rest => stepOkB a b && chainOkB (b :: rest)

/-- No status-field write happens after a terminal (`completed`/`failed`)
status has been written. -/
def noStatusAfterTerminal : List WEvent → Bool
  | [] => true
  | .status .completed :: rest => rest.all fun e =>
      match e with
      | .status _ => false
      | _ => true
  | .status .failed :: rest => rest.all fun e =>
      match e with
      | .status _ => false
      | _ => true
  | _ :: rest => noStatusAfterTerminal rest

/-- Every write of status `completed` is preceded by a real-cluster
`apply_manifest` call. -/
def realApplyPrecedesCompleted : List WEvent → Bool → Bool
  | [], _ => true
  | .status .completed :: rest, seen => seen && realApplyPrecedesCompleted rest seen
  | .applyRealCall :: rest, _ => realApplyPrecedesCompleted rest true
  | _ :: rest, seen => realApplyPrecedesCompleted rest seen

/-- Number of destroy calls in a trace (successful or not). -/
def destroyCount (evs : List WEvent) : Nat :=
  evs.countP fun e =>
    match e with
    | .destroyCall _ => true
    | _ => false

/-- Number of successful shadow-environment create calls in a trace. -/
def createOkCount (evs : List WEvent) : Nat :=
  evs.countP fun e => e == .createCall true

/-- Every destroy call is preceded by a terminal status-field write. -/
def terminalBeforeDestroy : List WEvent → Bool → Bool
  | [], _ => true
  | .status .completed :: rest, _ => terminalBeforeDestroy rest true
  | .status .failed :: rest, _ => terminalBeforeDestroy rest true
  | .destroyCall _ :: rest, seen => seen && terminalBeforeDestroy rest seen
  | _ :: rest, seen => terminalBeforeDestroy rest seen

/-- Every destroy call is followed (later in the trace) by an observer
callback: destruction precedes the last report. -/
def notifyAfterEachDestroy : List WEvent → Bool
  | [] => true
  | .destroyCall _ :: rest =>
    (rest.any fun e =>
      match e with
      | .notify _ => true
      | _ => false) && notifyAfterEachDestroy rest
  | _ :: rest => notifyAfterEachDestroy rest

/-- The ordering the spec claims: no observer callback reporting a terminal
status happens before the destroy call. -/
def destroyBeforeReports : List WEvent → Bool → Bool
  | [], _ => true
  | .destroyCall _ :: rest, _ => destroyBeforeReports rest true
  | .notify .completed :: rest, seen => seen && destroyBeforeReports rest seen
  | .notify .failed :: rest, seen => seen && destroyBeforeReports rest seen
  | _ :: rest, seen => destroyBeforeReports rest seen

/-- A fully successful run: every external call succeeds, the AI safety
summary carries no severity keyword, a completion callback is registered. -/
def envHappy : WorkflowEnv :=
  { adapterFound := true
    createResult := .ok "shadow-1"
    connCheck := fun _ => true
    listTargetOk := true
    resourceFound := true
    remediationResult := .ok "scale the deployment down"
    applyShadowResult := .ok true
    listShadowOk := true
    vResFound := true
    analyzeShadowResult := .ok "No new vulnerabilities introduced."
    applyRealResult := .ok true
    listFinalOk := true
    analyzeFinalResult := .ok "resolved"
    destroyResult := .ok ()
    hasCallback := true }

/-- Same run but the shadow-validation narrative flags a high-severity risk. -/
def envGate : WorkflowEnv :=
  { envHappy with analyzeShadowResult := .ok "High severity risk: privileged container." }

/-- Same run but shadow-environment creation times out waiting for the
connection descriptor. -/
def envTimeout : WorkflowEnv :=
  { envHappy with
    createResult := .error "Timed out waiting for vcluster kubeconfig generation" }

/-! ## Shadow environment manager (`simulation_adapter.py`) -/

/-- Observations `VClusterAdapter.create_shadow_env` makes of the outside
world, in program order.  Each `os.path` / `proc.poll()` call is a separate
observation at a separate time, hence the `Nat`-indexed families. -/
structure ConnectWorld where
  /-- the generated collision-resistant shadow name. -/
  shadowName : String
  /-- return code of the blocking `vcluster create` subprocess. -/
  createReturncode : Int
  /-- stderr/stdout of a failed `vcluster create`. -/
  createErr : String
  /-- poll `i` of the wait loop: the kubeconfig file exists with size > 0. -/
  ready : Nat → Bool
  /-- check after sleep `i`: the background connect process has exited. -/
  procExited : Nat → Bool
  /-- the post-loop `os.path.exists` check, indexed by iterations completed. -/
  existsAfter : Nat → Bool

/-- Result of the bounded descriptor wait loop
(`for i in range(30): if ready: break; sleep(1); if died: raise`). -/
inductive PollOutcome where
  | broke (i : Nat)
  | died (i : Nat)
  | exhausted
deriving DecidableEq, Repr

/-- The wait loop itself: at iteration `i` first the readiness poll, then
(after the 1s sleep) the liveness check of the background process. -/
def pollLoop (w : ConnectWorld) : Nat → Nat → PollOutcome
  | 0, _ => .exhausted
  | fuel + 1, i =>
    if w.ready i then .broke i
    else if w.procExited i then .died i
    else pollLoop w fuel (i + 1)

/-- `VClusterAdapter.create_shadow_env`: run `vcluster create` (raising on a
non-zero exit), start the background connect tunnel, poll for the kubeconfig
descriptor with 30 fixed-interval retries, raise if the tunnel process died
or — after the loop — the descriptor file still does not exist.  `Except.ok`
returns the shadow environment (by its name); `Except.error` returns none. -/
def create_shadow_env (w : ConnectWorld) : Except String String :=
  if w.createReturncode ≠ 0 then
    .error ("Failed to create shadow cluster: " ++ w.createErr)
  else
    match pollLoop w 30 0 with
    | .died _ => .error "VCluster connect process died unexpectedly"
    | .broke i =>
      if w.existsAfter i then .ok w.shadowName
      else .error "Timed out waiting for vcluster kubeconfig generation"
    | .exhausted =>
      if w.existsAfter 30 then .ok w.shadowName
      else .error "Timed out waiting for vcluster kubeconfig generation"

/-- The same world with every observation beyond the 30-iteration polling
window blanked out; `create_shadow_env` cannot tell the difference, which is
the formal content of "a bounded number of fixed-interval retries". -/
def truncWorld (w : ConnectWorld) : ConnectWorld :=
  { w with
    ready := fun i => w.ready i && decide (i < 30)
    procExited := fun i => w.procExited i && decide (i < 30)
    existsAfter := fun n => w.existsAfter n && decide (n ≤ 30) }

/-- A world where the connection descriptor never appears and the tunnel
process stays alive: the retry bound is exhausted. -/
def worldNeverReady : ConnectWorld :=
  { shadowName := "shadow-1"
    createReturncode := 0
    createErr := ""
    ready := fun _ => false
    procExited := fun _ => false
    existsAfter := fun _ => false }

/-! ## Cluster adapter `apply_manifest` (`k8s_adapter.py`) -/

/-- Outcome of the `kubectl apply -f -` subprocess execution. -/
inductive KubectlOutcome where
  | exited (code : Int) (stderr : String)
  | binaryMissing
  | execError (msg : String)
deriving DecidableEq, Repr

/-- `KubernetesAdapter.apply_manifest`: returns `True` when kubectl exits 0,
raises (`Except.error`) on a non-zero exit, a missing kubectl binary, or any
other execution failure.  No branch produces `False`. -/
def apply_manifest : KubectlOutcome → Except String Bool
  | .exited code err =>
    if code ≠ 0 then .error ("Kubectl apply failed: " ++ err) else .ok true
  | .binaryMissing => .error "kubectl binary not found in PATH"
  | .execError m => .error m

/-- All non-log observables of the `try:` body at once: event trace, last
status, recorded vcluster id, raised exception. -/
def TB (env : WorkflowEnv) (ev : List WEvent) (st : WStatus)
    (vid : Option String) (err : Option String) : Prop :=
  (tryBody env).events = ev ∧ (tryBody env).status = st ∧
    (tryBody env).vid = vid ∧ (tryBody env).err = err

/-! ## Scan engine (`scan_service.py`) -/

/-- The strings written to `scan_store[scan_id]["status"]`.  `startingScan`
is the code's `"initializing"`, the rest keep the code's names. -/
inductive ScanStatus where
  | startingScan
  | fetching_resources
  | analyzing
  | completed
  | stopped
  | failed
deriving DecidableEq, Repr

/-- The scan type strings `"full"` / `"smart"`. -/
inductive ScanType where
  | full
  | smart
deriving DecidableEq, Repr

/-- The slice of a Kubernetes resource `_run_scan` reads: kind, name,
namespace, `unique_id`, and `metadata.resourceVersion` (the version token). -/
structure SResource where
  kind : String
  name : String
  ns : String
  uid : String
  rv : String
deriving DecidableEq, Repr

/-- The slice of an AI-reported issue the scan stores. -/
structure SIssue where
  severity : String
  title : String
deriving DecidableEq, Repr

/-- Inputs of one `_run_scan` execution: session parameters, the committed
per-cluster snapshot at scan start, the outcome of the resource fetch, the
outcome of each per-namespace AI call (indexed by batch number), and the
batch index after whose trailing yield point a user cancellation is
observed (`none` when the scan is never cancelled). -/
structure ScanCfg where
  scanType : ScanType
  filters : List String
  ignoredNamespaces : List String
  prevSnapshot : List (String × String)
  fetch : Except String (List SResource)
  aiResults : Nat → Except String (List SIssue)
  cancelAfterBatch : Option Nat

/-- Python dict update (in-place value update, append new keys in order). -/
def updA : List (String × String) → String → String → List (String × String)
  | [], k, v => [(k, v)]
  | (k', v') :: rest, k, v =>
    if k' = k then (k, v) :: rest else (k', v') :: updA rest k v

/-- Python dict lookup. -/
def lookupA : List (String × String) → String → Option String
  | [], _ => none
  | (k', v') :: rest, k => if k' = k then some v' else lookupA rest k

/-- The kind filter of step 2 of the classification loop:
`if filters and r.kind not in filters: continue`. -/
def passFilter (cfg : ScanCfg) (r : SResource) : Bool :=
  cfg.filters.isEmpty || cfg.filters.contains r.kind

/-- The smart-scan skip test: the scan is `smart` and the resource's current
version token equals the committed snapshot's token. -/
def smartSkip (cfg : ScanCfg) (r : SResource) : Bool :=
  (cfg.scanType == .smart) && (lookupA cfg.prevSnapshot r.uid == some r.rv)

/-- Whether the classification loop queues `r` for AI analysis. -/
def queuedP (cfg : ScanCfg) (r : SResource) : Bool :=
  passFilter cfg r && !(cfg.ignoredNamespaces.contains r.ns) && !(smartSkip cfg r)

/-- The per-resource status the classification loop records for a resource
that passes the kind filter. -/
def classMark (cfg : ScanCfg) (r : SResource) : String :=
  if cfg.ignoredNamespaces.contains r.ns then "ignored"
  else if smartSkip cfg r then "analyzed"
  else "pending"

/-- State threaded through the classification loop: the freshly built
version-token snapshot, the map display list, the per-resource status map,
the smart-skip counter, and the AI analysis queue. -/
structure ClassifyAcc where
  snap : List (String × String)
  rlist : List SResource
  rstatus : List (String × String)
  skipped : Nat
  queue : List SResource
deriving Repr

/-- One iteration of the classification loop of `_run_scan` (its
`for r in all_resources` body, with the same continue-chain). -/
def classifyStep (cfg : ScanCfg) (acc : ClassifyAcc) (r : SResource) : ClassifyAcc :=
  let acc := { acc with snap := updA acc.snap r.uid r.rv }
  if ¬ passFilter cfg r then acc
  else
    let acc := { acc with rlist := acc.rlist ++ [r] }
    if cfg.ignoredNamespaces.contains r.ns then
      { acc with rstatus := updA acc.rstatus r.uid "ignored" }
    else if smartSkip cfg r then
      { acc with skipped := acc.skipped + 1, rstatus := updA acc.rstatus r.uid "analyzed" }
    else
      { acc with rstatus := updA acc.rstatus r.uid "pending", queue := acc.queue ++ [r] }

/-- The whole classification loop. -/
def classify (cfg : ScanCfg) (all : List SResource) : ClassifyAcc :=
  all.foldl (classifyStep cfg) ⟨[], [], [], 0, []⟩

/-- Namespaces of the queued resources in first-seen order (Python dict
insertion order of `resources_by_ns`). -/
def nsOrderAux : List String → List SResource → List String
  | acc, [] => acc
  | acc, r :: rest => nsOrderAux (if acc.contains r.ns then acc else acc ++ [r.ns]) rest

/-- Namespace batch order of a queue. -/
def nsOrder (q : List SResource) : List String := nsOrderAux [] q

/-- Index of a string in a list (first occurrence). -/
def idxOfStr : List String → String → Nat
  | [], _ => 0
  | x :: rest, s => if x = s then 0 else idxOfStr rest s + 1

/-- The issue-accumulation of one namespace batch as the code writes it
(`scan_service.py` lines 279-284): `issues_found.extend(partial_result.issues)`
sits inside `for issue in partial_result.issues`, so an `n`-issue batch
appends `n` copies of the whole `n`-issue list. -/
def extendPerIssue (issues : List SIssue) : List SIssue :=
  (List.replicate issues.length issues).flatten

/-- The error-marking pass of a failed batch:
`for r in ns_resources: state["resource_status"][r.unique_id] = "error"`. -/
def errFold (rs : List SResource) (m : List (String × String)) : List (String × String) :=
  rs.foldl (fun (m : List (String × String)) (r : SResource) => updA m r.uid "error") m

/-- The mark-as-done pass of a batch: set `analyzed` unless already `error`. -/
def markFold (rs : List SResource) (m : List (String × String)) : List (String × String) :=
  rs.foldl (fun (m : List (String × String)) (r : SResource) =>
    if lookupA m r.uid == some "error" then m else updA m r.uid "analyzed") m

/-- The snapshot built over the full resource list
(`current_snapshot[r.unique_id] = rv` for every fetched resource). -/
def snapFold (all : List SResource) (m : List (String × String)) : List (String × String) :=
  all.foldl (fun (m : List (String × String)) (r : SResource) => updA m r.uid r.rv) m

/-- State threaded through the namespace-batch loop. -/
structure BatchAcc where
  rstatus : List (String × String)
  issues : List SIssue
  processed : Nat
  progress : Nat
deriving Repr

/-- One namespace batch: the AI call (accumulating issues on success,
marking the batch's resources `error` on failure), the mark-as-done pass
(`analyzed` unless already `error`), and the progress update.  Progress
models `int((processed / total) * 100)` as Nat division (exact float
truncation may differ by one on some ratios; no claim depends on it). -/
def runBatch (cfg : ScanCfg) (queue : List SResource) (total : Nat) (i : Nat)
    (ns : String) (acc : BatchAcc) : BatchAcc :=
  let rs := queue.filter (fun r => r.ns == ns)
  let acc :=
    match cfg.aiResults i with
    | .ok issues => { acc with issues := acc.issues ++ extendPerIssue issues }
    | .error _ => { acc with rstatus := errFold rs acc.rstatus }
  let acc := { acc with rstatus := markFold rs acc.rstatus }
  { acc with processed := acc.processed + rs.length,
             progress := (acc.processed + rs.length) * 100 / total }

/-- The namespace-batch loop; the second component records whether the
trailing yield of some batch observed a cancellation (the Python
`asyncio.CancelledError` raised at `await asyncio.sleep(0.1)`). -/
def runBatches (cfg : ScanCfg) (queue : List SResource) (total : Nat) :
    List String → Nat → BatchAcc → BatchAcc × Bool
  | [], _, acc => (acc, false)
  | ns :: rest, i, acc =>
    let acc' := runBatch cfg queue total i ns acc
    if cfg.cancelAfterBatch = some i then (acc', true)
    else runBatches cfg queue total rest (i + 1) acc'

/-- Observable final state of one scan session: status, progress, the
per-resource status map, the display list, `results["issues"]`,
`results["summary"]`, the committed per-cluster snapshot after the run
(unchanged on `failed`/`stopped`), and the counters. -/
structure ScanOut where
  status : ScanStatus
  progress : Nat
  resourceStatus : List (String × String)
  resourcesList : List SResource
  resultIssues : List SIssue
  summary : String
  snapshot : List (String × String)
  totalResources : Nat
  analyzedResources : Nat
  skipped : Nat
deriving Repr

/-- `ScanService._run_scan`: fetch (failing the session on a fetch error),
classify, early-complete with the no-changes summary when nothing is queued
(committing the snapshot), otherwise run the namespace batches; on
cancellation finalize as `stopped` without committing the snapshot and
without storing the locally accumulated issues; otherwise store the issues,
the summary, commit the pending snapshot and complete.  Log lines are
omitted from this model (no claim is about scan logs). -/
def runScan (cfg : ScanCfg) : ScanOut :=
  match cfg.fetch with
  | .error _ =>
    { status := .failed, progress := 0, resourceStatus := [], resourcesList := [],
      resultIssues := [], summary := "", snapshot := cfg.prevSnapshot,
      totalResources := 0, analyzedResources := 0, skipped := 0 }
  | .ok all =>
    let c := classify cfg all
    if c.queue.isEmpty then
      { status := .completed, progress := 100, resourceStatus := c.rstatus,
        resourcesList := c.rlist, resultIssues := [],
        summary := "No changes detected or no resources found matching filters.",
        snapshot := c.snap, totalResources := 0, analyzedResources := 0,
        skipped := c.skipped }
    else
      let total := c.queue.length
      let nss := nsOrder c.queue
      let b := runBatches cfg c.queue total nss 0 ⟨c.rstatus, [], 0, 0⟩
      if b.2 then
        { status := .stopped, progress := b.1.progress, resourceStatus := b.1.rstatus,
          resourcesList := c.rlist, resultIssues := [], summary := "",
          snapshot := cfg.prevSnapshot, totalResources := total,
          analyzedResources := b.1.processed, skipped := c.skipped }
      else
        { status := .completed, progress := 100, resourceStatus := b.1.rstatus,
          resourcesList := c.rlist, resultIssues := b.1.issues,
          summary := "Scan complete. Found " ++ toString b.1.issues.length
            ++ " issues across " ++ toString total ++ " resources.",
          snapshot := c.snap, totalResources := total,
          analyzedResources := b.1.processed, skipped := c.skipped }

/-! Concrete scan fixtures used by counterexamples and witnesses. -/

/-- A resource in namespace `alpha`. -/
def rA : SResource := ⟨"Pod", "web", "alpha", "Pod/alpha/web", "1"⟩

/-- A second resource in namespace `alpha`. -/
def rA2 : SResource := ⟨"Deployment", "api", "alpha", "Deployment/alpha/api", "3"⟩

/-- A resource in namespace `beta`. -/
def rB : SResource := ⟨"Pod", "db", "beta", "Pod/beta/db", "2"⟩

/-- A high-severity issue. -/
def issueHigh : SIssue := ⟨"HIGH", "privileged container"⟩

/-- A low-severity issue. -/
def issueLow : SIssue := ⟨"LOW", "missing resource limits"⟩

/-- Two namespaces; batch 0 finds one issue; the user cancels right after
batch 0 completes. -/
def cfgCancelAfter1 : ScanCfg :=
  { scanType := .full, filters := [], ignoredNamespaces := [], prevSnapshot := []
    fetch := .ok [rA, rB]
    aiResults := fun i => if i = 0 then .ok [issueHigh] else .ok []
    cancelAfterBatch := some 0 }

/-- One namespace of two resources whose AI call returns two issues. -/
def cfgTwoIssues : ScanCfg :=
  { scanType := .full, filters := [], ignoredNamespaces := [], prevSnapshot := []
    fetch := .ok [rA, rA2]
    aiResults := fun _ => .ok [issueHigh, issueLow]
    cancelAfterBatch := none }

/-- A clean full scan over two namespaces, no issues found. -/
def cfgFirstScan : ScanCfg :=
  { scanType := .full, filters := [], ignoredNamespaces := [], prevSnapshot := []
    fetch := .ok [rA, rB]
    aiResults := fun _ => .ok []
    cancelAfterBatch := none }

/-- The follow-up smart scan over the unchanged cluster, starting from the
snapshot the first scan committed. -/
def cfgSecondScan : ScanCfg :=
  { cfgFirstScan with scanType := .smart, prevSnapshot := (runScan cfgFirstScan).snapshot }

/-- Two namespaces; the AI call of batch 0 (namespace `alpha`) raises,
batch 1 succeeds. -/
def cfgBatchError : ScanCfg :=
  { scanType := .full, filters := [], ignoredNamespaces := [], prevSnapshot := []
    fetch := .ok [rA, rB]
    aiResults := fun i => if i = 0 then .error "LLM backend unreachable" else .ok []
    cancelAfterBatch := none }

/-! ## Audit chain (`audit_adapter.py`)

The crypto primitives are modelled symbolically (ideal primitives): the
SHA-256 digest of a raw serialized entry line is an injective constructor
applied to the entry's serialized fields, and an RSA-PSS signature over the
canonical (sort_keys) JSON encoding of the payload is represented by the
signed payload itself — signing is injective in the payload and verification
compares the stored signature against the recomputed payload.  This is the
standard collision-free / unforgeable-ideal model for tamper-evidence
arguments; it abstracts hex encodings and JSON framing, both injective. -/

/-- A hash value: the `"0" * 64` sentinel, or the ideal SHA-256 digest of a
raw serialized audit-log line, identified by the line's ten serialized
scalar components (four payload strings, the previous hash, and the
signature's five payload components). -/
inductive HashVal where
  | zeros64 : HashVal
  | sha256 : String → String → String → String → HashVal →
      String → String → String → String → HashVal → HashVal
deriving DecidableEq, Repr

/-- The payload `log_action` signs: the canonical encoding of
`{timestamp, user_id, action, details, previous_hash}`. -/
structure AuditPayload where
  timestamp : String
  user_id : String
  action : String
  details : String
  previous_hash : HashVal
deriving DecidableEq, Repr

/-- A persisted audit-log entry (`AuditLogEntry`): the payload fields plus
the `previous_hash` link and the signature (ideal: the signed payload). -/
structure AuditEntry where
  timestamp : String
  user_id : String
  action : String
  details : String
  previous_hash : HashVal
  signature : AuditPayload
deriving DecidableEq, Repr

/-- The payload of a stored entry, as verification would recompute it. -/
def payloadOf (e : AuditEntry) : AuditPayload :=
  ⟨e.timestamp, e.user_id, e.action, e.details, e.previous_hash⟩

/-- Ideal SHA-256 of the raw serialized entry line. -/
def hashEntry (e : AuditEntry) : HashVal :=
  .sha256 e.timestamp e.user_id e.action e.details e.previous_hash
    e.signature.timestamp e.signature.user_id e.signature.action
    e.signature.details e.signature.previous_hash

/-- `CryptoAuditAdapter._get_last_hash`: the all-zero sentinel for an empty
log, otherwise the hash of the last non-empty serialized line. -/
def lastHash : List AuditEntry → HashVal
  | [] => .zeros64
  | [e] => hashEntry e
  | _ :: e :: rest => lastHash (e :: rest)

/-- `CryptoAuditAdapter.log_action`: compute `previous_hash` from the last
persisted entry, build the canonical payload, sign it, and append the entry
with its signature and `previous_hash`. -/
def log_action (log : List AuditEntry) (ts user act details : String) : List AuditEntry :=
  let prev := lastHash log
  let payload : AuditPayload := ⟨ts, user, act, details, prev⟩
  log ++ [⟨ts, user, act, details, prev, payload⟩]

/-- One logged action's inputs. -/
structure AuditAction where
  ts : String
  user : String
  act : String
  details : String
deriving DecidableEq, Repr

/-- A log built by appending a sequence of actions through `log_action`. -/
def buildChain (log : List AuditEntry) : List AuditAction → List AuditEntry
  | [] => log
  | a :: rest => buildChain (log_action log a.ts a.user a.act a.details) rest

/-- Structural list indexing (0-based), used by the verification routines. -/
def nthEntry {α : Type} : List α → Nat → Option α
  | [], _ => none
  | a :: _, 0 => some a
  | _ :: rest, i + 1 => nthEntry rest i

/-- Modelled from the spec: the verification contract of section 4.4 is not
part of src (it "must be implementable even though not wired into the
current call graph").  Signature verification of one entry recomputes the
canonical payload and compares it with the stored signature. -/
def verifySigAt (log : List AuditEntry) (k : Nat) : Bool :=
  match nthEntry log k with
  | none => true
  | some e => e.signature == payloadOf e

/-- Modelled from the spec: the per-entry previous-hash check recomputes the
expected `previous_hash` from the prior raw entry (the sentinel for the
first entry) and compares it with the stored link. -/
def verifyPrevAt (log : List AuditEntry) (k : Nat) : Bool :=
  match nthEntry log k with
  | none => true
  | some e =>
    match k with
    | 0 => e.previous_hash == HashVal.zeros64
    | j + 1 =>
      match nthEntry log j with
      | some p => e.previous_hash == hashEntry p
      | none => false

/-- Modelled from the spec: the chain walk "flags tampering starting at that
entry" — an index is chain-valid when every local check at or before it
passes. -/
def chainValidUpTo (log : List AuditEntry) (k : Nat) : Bool :=
  (List.range (k + 1)).all fun j => verifySigAt log j && verifyPrevAt log j

/-- A one-byte flip in the stored serialized line of an entry: under the
injective serialization exactly one of the six serialized fields parses to a
different value (a flip that breaks the framing altogether makes the line
unparseable and every check fail trivially; it is not modelled). -/
def oneFieldFlip (e e' : AuditEntry) : Prop :=
  (e'.timestamp ≠ e.timestamp ∧ e'.user_id = e.user_id ∧ e'.action = e.action ∧
    e'.details = e.details ∧ e'.previous_hash = e.previous_hash ∧ e'.signature = e.signature)
  ∨ (e'.timestamp = e.timestamp ∧ e'.user_id ≠ e.user_id ∧ e'.action = e.action ∧
    e'.details = e.details ∧ e'.previous_hash = e.previous_hash ∧ e'.signature = e.signature)
  ∨ (e'.timestamp = e.timestamp ∧ e'.user_id = e.user_id ∧ e'.action ≠ e.action ∧
    e'.details = e.details ∧ e'.previous_hash = e.previous_hash ∧ e'.signature = e.signature)
  ∨ (e'.timestamp = e.timestamp ∧ e'.user_id = e.user_id ∧ e'.action = e.action ∧
    e'.details ≠ e.details ∧ e'.previous_hash = e.previous_hash ∧ e'.signature = e.signature)
  ∨ (e'.timestamp = e.timestamp ∧ e'.user_id = e.user_id ∧ e'.action = e.action ∧
    e'.details = e.details ∧ e'.previous_hash ≠ e.previous_hash ∧ e'.signature = e.signature)
  ∨ (e'.timestamp = e.timestamp ∧ e'.user_id = e.user_id ∧ e'.action = e.action ∧
    e'.details = e.details ∧ e'.previous_hash = e.previous_hash ∧ e'.signature ≠ e.signature)

instance oneFieldFlipDec (e e' : AuditEntry) : Decidable (oneFieldFlip e e') := by
  unfold oneFieldFlip
  infer_instance

/-- Three concrete audit actions. -/
def actions3 : List AuditAction :=
  [⟨"t1", "alice", "start_scan", "d1"⟩, ⟨"t2", "bob", "apply_fix", "d2"⟩,
    ⟨"t3", "carol", "start_scan", "d3"⟩]

/-- The chain they build. -/
def chain3 : List AuditEntry := buildChain [] actions3

/-- Entry 0 of `chain3`, spelled out. -/
def entry0 : AuditEntry :=
  ⟨"t1", "alice", "start_scan", "d1", .zeros64,
    ⟨"t1", "alice", "start_scan", "d1", .zeros64⟩⟩

/-- Entry 0 of `chain3` with one byte of its `details` field flipped. -/
def e0Flipped : AuditEntry :=
  ⟨"t1", "alice", "start_scan", "dX", .zeros64,
    ⟨"t1", "alice", "start_scan", "d1", .zeros64⟩⟩

/-- The tampered log. -/
def chain3T : List AuditEntry := chain3.set 0 e0Flipped

/-! ## Theorems.  First, a shared characterization of the `try:` body:
every run exits through one of nine observationally distinct doors. -/

/-- Case analysis on `tryBody`: registry miss, create failure, connectivity
failure, a step-2 failure, a step-3 failure, a step-4 failure (including the
tripped safety gate), a step-5 failure after the gate passed, a step-6
failure after the gate passed, or full success. -/
theorem tryBody_cases (env : WorkflowEnv) :
    (env.adapterFound = false ∧
      TB env [] .starting none (some "Target cluster disconnected or not found in registry"))
    ∨ (∃ m, env.createResult = .error m ∧
      TB env [.status .step_1_create_vcluster, .createCall false] .step_1_create_vcluster none (some m))
    ∨ (∃ v, env.createResult = .ok v ∧
      TB env [.status .step_1_create_vcluster, .createCall true] .step_1_create_vcluster (some v)
        (some "Could not connect to VCluster after creation"))
    ∨ (∃ v m, env.createResult = .ok v ∧
      TB env [.status .step_1_create_vcluster, .createCall true, .status .step_2_analysis]
        .step_2_analysis (some v) (some m))
    ∨ (∃ v m, env.createResult = .ok v ∧
      TB env [.status .step_1_create_vcluster, .createCall true, .status .step_2_analysis,
        .status .step_3_apply_vcluster, .applyShadowCall] .step_3_apply_vcluster (some v) (some m))
    ∨ (∃ v m, env.createResult = .ok v ∧
      TB env [.status .step_1_create_vcluster, .createCall true, .status .step_2_analysis,
        .status .step_3_apply_vcluster, .applyShadowCall, .status .step_4_validate_vcluster]
        .step_4_validate_vcluster (some v) (some m))
    ∨ (∃ v s m, env.createResult = .ok v ∧ env.analyzeShadowResult = .ok s ∧ gateTrips s = false ∧
      TB env [.status .step_1_create_vcluster, .createCall true, .status .step_2_analysis,
        .status .step_3_apply_vcluster, .applyShadowCall, .status .step_4_validate_vcluster,
        .status .step_5_apply_real, .applyRealCall] .step_5_apply_real (some v) (some m))
    ∨ (∃ v s m, env.createResult = .ok v ∧ env.analyzeShadowResult = .ok s ∧ gateTrips s = false ∧
      TB env [.status .step_1_create_vcluster, .createCall true, .status .step_2_analysis,
        .status .step_3_apply_vcluster, .applyShadowCall, .status .step_4_validate_vcluster,
        .status .step_5_apply_real, .applyRealCall, .status .step_6_final_validate]
        .step_6_final_validate (some v) (some m))
    ∨ (∃ v s, env.createResult = .ok v ∧ env.analyzeShadowResult = .ok s ∧ gateTrips s = false ∧
      TB env ([.status .step_1_create_vcluster, .createCall true, .status .step_2_analysis,
        .status .step_3_apply_vcluster, .applyShadowCall, .status .step_4_validate_vcluster,
        .status .step_5_apply_real, .applyRealCall, .status .step_6_final_validate,
        .status .completed] ++ (if env.hasCallback then [.notify .completed] else []))
        .completed (some v) none) := by
  obtain ⟨aF, cR, cc, lT, rF, rem, aS, lS, vF, anS, aR, lFk, anF, dRes, hC⟩ := env
  cases aF with
  | false => exact Or.inl ⟨rfl, rfl, rfl, rfl, rfl⟩
  | true =>
  cases cR with
  | error m => exact Or.inr (Or.inl ⟨m, rfl, rfl, rfl, rfl, rfl⟩)
  | ok v =>
  cases hcw : (connWait cc 10 0).2 with
  | false =>
    refine Or.inr (Or.inr (Or.inl ⟨v, rfl, ?_, ?_, ?_, ?_⟩)) <;>
      simp only [tryBody, hcw] <;> rfl
  | true =>
  cases lT with
  | false =>
    refine Or.inr (Or.inr (Or.inr (Or.inl ⟨v, "list_resources failed", rfl, ?_, ?_, ?_, ?_⟩))) <;>
      simp only [tryBody, hcw] <;> rfl
  | true =>
  cases rF with
  | false =>
    refine Or.inr (Or.inr (Or.inr (Or.inl
      ⟨v, "Resource not found in target cluster", rfl, ?_, ?_, ?_, ?_⟩))) <;>
      simp only [tryBody, hcw] <;> rfl
  | true =>
  cases rem with
  | error m =>
    refine Or.inr (Or.inr (Or.inr (Or.inl ⟨v, m, rfl, ?_, ?_, ?_, ?_⟩))) <;>
      simp only [tryBody, hcw] <;> rfl
  | ok desc =>
  cases aS with
  | error m =>
    refine Or.inr (Or.inr (Or.inr (Or.inr (Or.inl ⟨v, m, rfl, ?_, ?_, ?_, ?_⟩)))) <;>
      simp only [tryBody, hcw] <;> rfl
  | ok b =>
  cases b with
  | false =>
    refine Or.inr (Or.inr (Or.inr (Or.inr (Or.inl
      ⟨v, "Failed to apply fix to VCluster", rfl, ?_, ?_, ?_, ?_⟩)))) <;>
      simp only [tryBody, hcw] <;> rfl
  | true =>
  cases lS with
  | false =>
    refine Or.inr (Or.inr (Or.inr (Or.inr (Or.inr (Or.inl
      ⟨v, "list_resources failed", rfl, ?_, ?_, ?_, ?_⟩))))) <;>
      simp only [tryBody, hcw] <;> rfl
  | true =>
  cases anS with
  | error m =>
    refine Or.inr (Or.inr (Or.inr (Or.inr (Or.inr (Or.inl ⟨v, m, rfl, ?_, ?_, ?_, ?_⟩))))) <;>
      simp only [tryBody, hcw] <;> rfl
  | ok s =>
  cases hg : gateTrips s with
  | true =>
    refine Or.inr (Or.inr (Or.inr (Or.inr (Or.inr (Or.inl
      ⟨v, "VCluster validation failed due to high severity risks detected.", rfl, ?_, ?_, ?_, ?_⟩))))) <;>
      simp only [tryBody, hcw, hg] <;> rfl
  | false =>
  cases aR with
  | error m =>
    refine Or.inr (Or.inr (Or.inr (Or.inr (Or.inr (Or.inr (Or.inl
      ⟨v, s, m, rfl, rfl, hg, ?_, ?_, ?_, ?_⟩)))))) <;>
      simp only [tryBody, hcw, hg] <;> rfl
  | ok rb =>
  cases rb with
  | false =>
    refine Or.inr (Or.inr (Or.inr (Or.inr (Or.inr (Or.inr (Or.inl
      ⟨v, s, "Failed to apply to Real Cluster", rfl, rfl, hg, ?_, ?_, ?_, ?_⟩)))))) <;>
      simp only [tryBody, hcw, hg] <;> rfl
  | true =>
  cases lFk with
  | false =>
    refine Or.inr (Or.inr (Or.inr (Or.inr (Or.inr (Or.inr (Or.inr (Or.inl
      ⟨v, s, "list_resources failed", rfl, rfl, hg, ?_, ?_, ?_, ?_⟩))))))) <;>
      simp only [tryBody, hcw, hg] <;> rfl
  | true =>
  cases anF with
  | error m =>
    refine Or.inr (Or.inr (Or.inr (Or.inr (Or.inr (Or.inr (Or.inr (Or.inl
      ⟨v, s, m, rfl, rfl, hg, ?_, ?_, ?_, ?_⟩))))))) <;>
      simp only [tryBody, hcw, hg] <;> rfl
  | ok fa =>
    refine Or.inr (Or.inr (Or.inr (Or.inr (Or.inr (Or.inr (Or.inr (Or.inr
      ⟨v, s, rfl, rfl, hg, ?_, ?_, ?_, ?_⟩))))))) <;>
      simp [tryBody, TB, hcw, hg] <;> cases hC <;> simp

/-- C3: every workflow's status field moves monotonically through the fixed
phase order with no phase skipped (every adjacent transition is either the
next phase or a jump to `failed` from a non-terminal state); any unhandled
phase error yields final status `failed` plus a diagnostic log line;
`completed`/`failed` are terminal (no status write follows them); and no
run writes `completed` without a prior real-cluster apply call. -/
theorem C3_state_machine (env : WorkflowEnv) :
    chainOkB (statusTrace env) = true
    ∧ noStatusAfterTerminal (runWorkflow env).events = true
    ∧ realApplyPrecedesCompleted (runWorkflow env).events false = true
    ∧ (∀ m, (tryBody env).err = some m →
        (runWorkflow env).status = .failed
        ∧ ("CRITICAL ERROR: " ++ m) ∈ (runWorkflow env).logs) := by
  have h := tryBody_cases env
  simp only [TB] at h
  refine ⟨?_, ?_, ?_, ?_⟩
  · rcases h with ⟨hA, hEv, hSt, hVid, hErr⟩ | ⟨m, hCr, hEv, hSt, hVid, hErr⟩ |
      ⟨v, hCr, hEv, hSt, hVid, hErr⟩ | ⟨v, m, hCr, hEv, hSt, hVid, hErr⟩ |
      ⟨v, m, hCr, hEv, hSt, hVid, hErr⟩ | ⟨v, m, hCr, hEv, hSt, hVid, hErr⟩ |
      ⟨v, s, m, hCr, hAn, hG, hEv, hSt, hVid, hErr⟩ |
      ⟨v, s, m, hCr, hAn, hG, hEv, hSt, hVid, hErr⟩ |
      ⟨v, s, hCr, hAn, hG, hEv, hSt, hVid, hErr⟩ <;>
    cases hd : env.destroyResult <;> cases hcb : env.hasCallback <;>
    simp only [statusTrace, runWorkflow, hEv, hSt, hVid, hErr, hd, hcb] <;> decide
  · rcases h with ⟨hA, hEv, hSt, hVid, hErr⟩ | ⟨m, hCr, hEv, hSt, hVid, hErr⟩ |
      ⟨v, hCr, hEv, hSt, hVid, hErr⟩ | ⟨v, m, hCr, hEv, hSt, hVid, hErr⟩ |
      ⟨v, m, hCr, hEv, hSt, hVid, hErr⟩ | ⟨v, m, hCr, hEv, hSt, hVid, hErr⟩ |
      ⟨v, s, m, hCr, hAn, hG, hEv, hSt, hVid, hErr⟩ |
      ⟨v, s, m, hCr, hAn, hG, hEv, hSt, hVid, hErr⟩ |
      ⟨v, s, hCr, hAn, hG, hEv, hSt, hVid, hErr⟩ <;>
    cases hd : env.destroyResult <;> cases hcb : env.hasCallback <;>
    simp only [runWorkflow, hEv, hSt, hVid, hErr, hd, hcb] <;> decide
  · rcases h with ⟨hA, hEv, hSt, hVid, hErr⟩ | ⟨m, hCr, hEv, hSt, hVid, hErr⟩ |
      ⟨v, hCr, hEv, hSt, hVid, hErr⟩ | ⟨v, m, hCr, hEv, hSt, hVid, hErr⟩ |
      ⟨v, m, hCr, hEv, hSt, hVid, hErr⟩ | ⟨v, m, hCr, hEv, hSt, hVid, hErr⟩ |
      ⟨v, s, m, hCr, hAn, hG, hEv, hSt, hVid, hErr⟩ |
      ⟨v, s, m, hCr, hAn, hG, hEv, hSt, hVid, hErr⟩ |
      ⟨v, s, hCr, hAn, hG, hEv, hSt, hVid, hErr⟩ <;>
    cases hd : env.destroyResult <;> cases hcb : env.hasCallback <;>
    simp only [runWorkflow, hEv, hSt, hVid, hErr, hd, hcb] <;> decide
  · intro m' hm'
    rcases h with ⟨hA, hEv, hSt, hVid, hErr⟩ | ⟨m, hCr, hEv, hSt, hVid, hErr⟩ |
      ⟨v, hCr, hEv, hSt, hVid, hErr⟩ | ⟨v, m, hCr, hEv, hSt, hVid, hErr⟩ |
      ⟨v, m, hCr, hEv, hSt, hVid, hErr⟩ | ⟨v, m, hCr, hEv, hSt, hVid, hErr⟩ |
      ⟨v, s, m, hCr, hAn, hG, hEv, hSt, hVid, hErr⟩ |
      ⟨v, s, m, hCr, hAn, hG, hEv, hSt, hVid, hErr⟩ |
      ⟨v, s, hCr, hAn, hG, hEv, hSt, hVid, hErr⟩ <;>
    rw [hErr] at hm' <;>
    first
      | exact Option.noConfusion hm'
      | (injection hm' with hmm
         subst hmm
         cases hd : env.destroyResult <;>
         refine ⟨?_, ?_⟩ <;>
         simp [runWorkflow, hErr, hVid, hd, List.mem_append])

/-- The `try:` body never reads the cleanup destroy outcome. -/
theorem tryBody_destroy_irrel (env : WorkflowEnv) (d : Except String Unit) :
    tryBody { env with destroyResult := d } = tryBody env := by
  cases env
  rfl

/-- C1 (amended): for every run, the number of destroy calls equals the
number of successful create calls (so each created shadow environment is
destroyed exactly once); the terminal status is written to the store before
the destroy call; when a completion callback is registered, the destroy call
precedes the last observer callback (the cleanup-path one); the terminal
status does not depend on the destroy outcome; and a destroy failure only
appends a cleanup warning log line.  The run does, however, report the
terminal state to observers before destruction on the success path — see
the counterexample to the claim as originally stated. -/
theorem C1_cleanup_exactly_once (env : WorkflowEnv) :
    destroyCount (runWorkflow env).events = createOkCount (runWorkflow env).events
    ∧ terminalBeforeDestroy (runWorkflow env).events false = true
    ∧ (env.hasCallback = true → notifyAfterEachDestroy (runWorkflow env).events = true)
    ∧ (∀ d d', (runWorkflow { env with destroyResult := d }).status
        = (runWorkflow { env with destroyResult := d' }).status)
    ∧ (∀ v m, (tryBody env).vid = some v → env.destroyResult = .error m →
        ("Warning during cleanup: " ++ m) ∈ (runWorkflow env).logs) := by
  have h := tryBody_cases env
  simp only [TB] at h
  refine ⟨?_, ?_, ?_, ?_, ?_⟩
  · rcases h with ⟨hA, hEv, hSt, hVid, hErr⟩ | ⟨m, hCr, hEv, hSt, hVid, hErr⟩ |
      ⟨v, hCr, hEv, hSt, hVid, hErr⟩ | ⟨v, m, hCr, hEv, hSt, hVid, hErr⟩ |
      ⟨v, m, hCr, hEv, hSt, hVid, hErr⟩ | ⟨v, m, hCr, hEv, hSt, hVid, hErr⟩ |
      ⟨v, s, m, hCr, hAn, hG, hEv, hSt, hVid, hErr⟩ |
      ⟨v, s, m, hCr, hAn, hG, hEv, hSt, hVid, hErr⟩ |
      ⟨v, s, hCr, hAn, hG, hEv, hSt, hVid, hErr⟩ <;>
    cases hd : env.destroyResult <;> cases hcb : env.hasCallback <;>
    simp only [destroyCount, createOkCount, runWorkflow, hEv, hSt, hVid, hErr, hd, hcb] <;> decide
  · rcases h with ⟨hA, hEv, hSt, hVid, hErr⟩ | ⟨m, hCr, hEv, hSt, hVid, hErr⟩ |
      ⟨v, hCr, hEv, hSt, hVid, hErr⟩ | ⟨v, m, hCr, hEv, hSt, hVid, hErr⟩ |
      ⟨v, m, hCr, hEv, hSt, hVid, hErr⟩ | ⟨v, m, hCr, hEv, hSt, hVid, hErr⟩ |
      ⟨v, s, m, hCr, hAn, hG, hEv, hSt, hVid, hErr⟩ |
      ⟨v, s, m, hCr, hAn, hG, hEv, hSt, hVid, hErr⟩ |
      ⟨v, s, hCr, hAn, hG, hEv, hSt, hVid, hErr⟩ <;>
    cases hd : env.destroyResult <;> cases hcb : env.hasCallback <;>
    simp only [runWorkflow, hEv, hSt, hVid, hErr, hd, hcb] <;> decide
  · intro hcb
    rcases h with ⟨hA, hEv, hSt, hVid, hErr⟩ | ⟨m, hCr, hEv, hSt, hVid, hErr⟩ |
      ⟨v, hCr, hEv, hSt, hVid, hErr⟩ | ⟨v, m, hCr, hEv, hSt, hVid, hErr⟩ |
      ⟨v, m, hCr, hEv, hSt, hVid, hErr⟩ | ⟨v, m, hCr, hEv, hSt, hVid, hErr⟩ |
      ⟨v, s, m, hCr, hAn, hG, hEv, hSt, hVid, hErr⟩ |
      ⟨v, s, m, hCr, hAn, hG, hEv, hSt, hVid, hErr⟩ |
      ⟨v, s, hCr, hAn, hG, hEv, hSt, hVid, hErr⟩ <;>
    cases hd : env.destroyResult <;>
    simp only [runWorkflow, hEv, hSt, hVid, hErr, hd, hcb] <;> decide
  · intro d d'
    simp only [runWorkflow, tryBody_destroy_irrel]
  · intro v m hv hd
    rcases h with ⟨hA, hEv, hSt, hVid, hErr⟩ | ⟨m', hCr, hEv, hSt, hVid, hErr⟩ |
      ⟨v', hCr, hEv, hSt, hVid, hErr⟩ | ⟨v', m', hCr, hEv, hSt, hVid, hErr⟩ |
      ⟨v', m', hCr, hEv, hSt, hVid, hErr⟩ | ⟨v', m', hCr, hEv, hSt, hVid, hErr⟩ |
      ⟨v', s, m', hCr, hAn, hG, hEv, hSt, hVid, hErr⟩ |
      ⟨v', s, m', hCr, hAn, hG, hEv, hSt, hVid, hErr⟩ |
      ⟨v', s, hCr, hAn, hG, hEv, hSt, hVid, hErr⟩ <;>
    rw [hVid] at hv <;>
    first
      | exact Option.noConfusion hv
      | simp [runWorkflow, hVid, hErr, hd, List.mem_append]

/-- C1 counterexample to the claim as stated: in a fully successful run the
store status is set to `completed` and the completion callback fires before
the shadow environment is destroyed, so destruction does not precede every
report of the terminal state to observers. -/
theorem C1_report_before_destroy_counterexample :
    createOkCount (runWorkflow envHappy).events = 1
    ∧ destroyCount (runWorkflow envHappy).events = 1
    ∧ destroyBeforeReports (runWorkflow envHappy).events false = false := by
  decide

/-- C1 witness: the amended theorem applied to the fully successful run with
a failing destroy. -/
theorem C1_cleanup_witness :
    notifyAfterEachDestroy (runWorkflow envHappy).events = true
    ∧ ("Warning during cleanup: boom")
        ∈ (runWorkflow { envHappy with destroyResult := .error "boom" }).logs := by
  constructor
  · exact (C1_cleanup_exactly_once envHappy).2.2.1 rfl
  · exact (C1_cleanup_exactly_once { envHappy with destroyResult := .error "boom" }).2.2.2.2
      "shadow-1" "boom" rfl rfl

/-- C2: the promotion gate is textual — if the shadow-validation narrative
summary contains "high" or "critical" case-insensitively (and the workflow
reached the validating phase), the run ends `failed` with no real-cluster
apply call; conversely a real-cluster apply call only happens when the
summary passed the textual gate. -/
theorem C2_safety_gate (env : WorkflowEnv) :
    (∀ s, env.analyzeShadowResult = .ok s → gateTrips s = true →
      WEvent.status .step_4_validate_vcluster ∈ (runWorkflow env).events →
      (runWorkflow env).status = .failed ∧ WEvent.applyRealCall ∉ (runWorkflow env).events)
    ∧ (WEvent.applyRealCall ∈ (runWorkflow env).events →
      ∃ s, env.analyzeShadowResult = .ok s ∧ gateTrips s = false) := by
  have h := tryBody_cases env
  simp only [TB] at h
  constructor
  · intro s hs hg hmem
    rcases h with ⟨hA, hEv, hSt, hVid, hErr⟩ | ⟨m, hCr, hEv, hSt, hVid, hErr⟩ |
      ⟨v, hCr, hEv, hSt, hVid, hErr⟩ | ⟨v, m, hCr, hEv, hSt, hVid, hErr⟩ |
      ⟨v, m, hCr, hEv, hSt, hVid, hErr⟩ | ⟨v, m, hCr, hEv, hSt, hVid, hErr⟩ |
      ⟨v, s', m, hCr, hAn, hG, hEv, hSt, hVid, hErr⟩ |
      ⟨v, s', m, hCr, hAn, hG, hEv, hSt, hVid, hErr⟩ |
      ⟨v, s', hCr, hAn, hG, hEv, hSt, hVid, hErr⟩ <;>
    first
      | (rw [hs] at hAn
         injection hAn with he
         rw [← he, hg] at hG
         exact Bool.noConfusion hG)
      | (cases hd : env.destroyResult <;> cases hcb : env.hasCallback <;>
         simp only [runWorkflow, hEv, hSt, hVid, hErr, hd, hcb] at hmem ⊢ <;>
         first
           | exact absurd hmem (by decide)
           | exact ⟨by trivial, by decide⟩)
  · intro hmem
    rcases h with ⟨hA, hEv, hSt, hVid, hErr⟩ | ⟨m, hCr, hEv, hSt, hVid, hErr⟩ |
      ⟨v, hCr, hEv, hSt, hVid, hErr⟩ | ⟨v, m, hCr, hEv, hSt, hVid, hErr⟩ |
      ⟨v, m, hCr, hEv, hSt, hVid, hErr⟩ | ⟨v, m, hCr, hEv, hSt, hVid, hErr⟩ |
      ⟨v, s', m, hCr, hAn, hG, hEv, hSt, hVid, hErr⟩ |
      ⟨v, s', m, hCr, hAn, hG, hEv, hSt, hVid, hErr⟩ |
      ⟨v, s', hCr, hAn, hG, hEv, hSt, hVid, hErr⟩ <;>
    first
      | exact ⟨s', hAn, hG⟩
      | (cases hd : env.destroyResult <;> cases hcb : env.hasCallback <;>
         simp only [runWorkflow, hEv, hSt, hVid, hErr, hd, hcb] at hmem <;>
         exact absurd hmem (by decide))

/-- C2 witness: a summary containing "High" makes the run fail before any
real-cluster apply. -/
theorem C2_safety_gate_witness :
    (runWorkflow envGate).status = .failed
    ∧ WEvent.applyRealCall ∉ (runWorkflow envGate).events := by
  exact (C2_safety_gate envGate).1 "High severity risk: privileged container."
    rfl (by decide) (by decide)

/-- The wait loop only observes polls at iterations `i, ..., i + fuel - 1`. -/
theorem pollLoop_congr (w w' : ConnectWorld) : ∀ fuel i,
    w'.shadowName = w.shadowName →
    (∀ j, i ≤ j → j < i + fuel → w.ready j = w'.ready j) →
    (∀ j, i ≤ j → j < i + fuel → w.procExited j = w'.procExited j) →
    pollLoop w fuel i = pollLoop w' fuel i := by
  intro fuel
  induction fuel with
  | zero => intro i _ _ _; rfl
  | succ n ih =>
    intro i hn hr hp
    have hr0 : w.ready i = w'.ready i := hr i le_rfl (by omega)
    have hp0 : w.procExited i = w'.procExited i := hp i le_rfl (by omega)
    simp only [pollLoop, ← hr0, ← hp0]
    split
    · rfl
    · split
      · rfl
      · exact ih (i + 1) hn (fun j h1 h2 => hr j (by omega) (by omega))
          (fun j h1 h2 => hp j (by omega) (by omega))

/-- If the loop broke at iteration `j`, the descriptor was ready at `j` and
`j` lies inside the polling window. -/
theorem pollLoop_broke_bounds (w : ConnectWorld) : ∀ fuel i j,
    pollLoop w fuel i = .broke j → i ≤ j ∧ j < i + fuel ∧ w.ready j = true := by
  intro fuel
  induction fuel with
  | zero => intro i j h; exact PollOutcome.noConfusion h
  | succ n ih =>
    intro i j h
    simp only [pollLoop] at h
    by_cases hr : w.ready i = true
    · rw [if_pos hr] at h
      injection h with hj
      subst hj
      exact ⟨le_rfl, by omega, hr⟩
    · rw [if_neg hr] at h
      by_cases hp : w.procExited i = true
      · rw [if_pos hp] at h
        exact PollOutcome.noConfusion h
      · rw [if_neg hp] at h
        obtain ⟨h1, h2, h3⟩ := ih (i + 1) j h
        exact ⟨by omega, by omega, h3⟩

/-- If neither the descriptor appears nor the process dies inside the
window, the loop exhausts its retries. -/
theorem pollLoop_exhausts (w : ConnectWorld) : ∀ fuel i,
    (∀ j, i ≤ j → j < i + fuel → w.ready j = false) →
    (∀ j, i ≤ j → j < i + fuel → w.procExited j = false) →
    pollLoop w fuel i = .exhausted := by
  intro fuel
  induction fuel with
  | zero => intro i _ _; rfl
  | succ n ih =>
    intro i hr hp
    simp only [pollLoop, hr i le_rfl (by omega), hp i le_rfl (by omega)]
    exact ih (i + 1) (fun j h1 h2 => hr j (by omega) (by omega))
      (fun j h1 h2 => hp j (by omega) (by omega))

/-- C9: shadow-environment creation polls with a bounded window — the result
only depends on the first 30 polls (`truncWorld`); if the tunnel process dies
inside the loop, create fails; if the descriptor never appears within the
bound, create fails, and — when `vcluster create` itself succeeded and the
process stayed alive — with exactly the timeout message; and a workflow whose
create raises that timeout ends `failed`, logs a timeout-referencing line,
and performs zero real-cluster apply calls. -/
theorem C9_bounded_create_polling (w : ConnectWorld) (env : WorkflowEnv) :
    create_shadow_env w = create_shadow_env (truncWorld w)
    ∧ (∀ i, pollLoop w 30 0 = .died i → (create_shadow_env w).isOk = false)
    ∧ ((∀ i, i < 30 → w.ready i = false) → w.existsAfter 30 = false →
        (create_shadow_env w).isOk = false
        ∧ (w.createReturncode = 0 → (∀ i, i < 30 → w.procExited i = false) →
            create_shadow_env w = .error "Timed out waiting for vcluster kubeconfig generation"))
    ∧ (env.adapterFound = true →
        env.createResult = .error "Timed out waiting for vcluster kubeconfig generation" →
        (runWorkflow env).status = .failed
        ∧ "CRITICAL ERROR: Timed out waiting for vcluster kubeconfig generation"
            ∈ (runWorkflow env).logs
        ∧ pyIn "Timed out" "CRITICAL ERROR: Timed out waiting for vcluster kubeconfig generation" = true
        ∧ (runWorkflow env).events.count WEvent.applyRealCall = 0) := by
  refine ⟨?_, ?_, ?_, ?_⟩
  · have hpoll : pollLoop w 30 0 = pollLoop (truncWorld w) 30 0 := by
      refine pollLoop_congr w (truncWorld w) 30 0 rfl ?_ ?_ <;>
        intro j h1 h2 <;> simp [truncWorld] <;> omega
    simp only [create_shadow_env]
    rw [← hpoll]
    simp only [truncWorld]
    cases hp : pollLoop w 30 0 with
    | died i => rfl
    | exhausted => simp
    | broke i =>
      obtain ⟨-, hlt, -⟩ := pollLoop_broke_bounds w 30 0 i hp
      have hle : i ≤ 30 := by omega
      simp [hle]
  · intro i hdied
    simp only [create_shadow_env, hdied]
    split
    · rfl
    · rfl
  · intro hready hex
    have hnotok : (create_shadow_env w).isOk = false := by
      simp only [create_shadow_env]
      split
      · rfl
      · cases hp : pollLoop w 30 0 with
        | died i => rfl
        | exhausted => simp [hex, Except.isOk, Except.toBool]
        | broke i =>
          obtain ⟨-, hlt, hr⟩ := pollLoop_broke_bounds w 30 0 i hp
          rw [hready i (by omega)] at hr
          exact Bool.noConfusion hr
    refine ⟨hnotok, ?_⟩
    intro hrc hproc
    have hp : pollLoop w 30 0 = .exhausted :=
      pollLoop_exhausts w 30 0 (fun j _ h2 => hready j (by omega))
        (fun j _ h2 => hproc j (by omega))
    simp [create_shadow_env, hrc, hp, hex]
  · intro hA hCr
    have h := tryBody_cases env
    simp only [TB] at h
    rcases h with ⟨hA', hEv, hSt, hVid, hErr⟩ | ⟨m, hCr', hEv, hSt, hVid, hErr⟩ |
      ⟨v, hCr', hEv, hSt, hVid, hErr⟩ | ⟨v, m, hCr', hEv, hSt, hVid, hErr⟩ |
      ⟨v, m, hCr', hEv, hSt, hVid, hErr⟩ | ⟨v, m, hCr', hEv, hSt, hVid, hErr⟩ |
      ⟨v, s, m, hCr', hAn, hG, hEv, hSt, hVid, hErr⟩ |
      ⟨v, s, m, hCr', hAn, hG, hEv, hSt, hVid, hErr⟩ |
      ⟨v, s, hCr', hAn, hG, hEv, hSt, hVid, hErr⟩
    · rw [hA] at hA'; exact Bool.noConfusion hA'
    · rw [hCr] at hCr'
      injection hCr' with hm
      subst hm
      cases hd : env.destroyResult <;> cases hcb : env.hasCallback <;>
        refine ⟨?_, ?_, by decide, ?_⟩ <;>
        simp only [runWorkflow, hEv, hSt, hVid, hErr, hd, hcb, List.mem_append] <;>
        first
          | decide
          | exact Or.inr (by decide)
    all_goals (rw [hCr] at hCr'; exact Except.noConfusion hCr')

/-- C9 witness: the concrete never-appearing-descriptor world and the
concrete timed-out workflow environment. -/
theorem C9_bounded_create_polling_witness :
    create_shadow_env worldNeverReady
      = .error "Timed out waiting for vcluster kubeconfig generation"
    ∧ (runWorkflow envTimeout).status = .failed
    ∧ (runWorkflow envTimeout).events.count WEvent.applyRealCall = 0 := by
  refine ⟨?_, ?_, ?_⟩
  · exact ((C9_bounded_create_polling worldNeverReady envTimeout).2.2.1
      (fun i _ => rfl) rfl).2 rfl (fun i _ => rfl)
  · exact ((C9_bounded_create_polling worldNeverReady envTimeout).2.2.2 rfl rfl).1
  · exact ((C9_bounded_create_polling worldNeverReady envTimeout).2.2.2 rfl rfl).2.2.2

/-- C10: the cluster adapter's `apply_manifest` never returns `False`: it
returns `True` exactly on a zero kubectl exit and raises in every other case
(non-zero exit, missing binary, other execution failure), so a caller
branching on a `False` return has an unreachable branch with this adapter. -/
theorem C10_apply_manifest_never_false (o : KubectlOutcome) :
    (∀ b, apply_manifest o = .ok b → b = true)
    ∧ apply_manifest o ≠ .ok false
    ∧ (∀ e, apply_manifest (.exited 0 e) = .ok true)
    ∧ (∀ c e, c ≠ 0 → (apply_manifest (.exited c e)).isOk = false)
    ∧ apply_manifest .binaryMissing = .error "kubectl binary not found in PATH" := by
  have h1 : ∀ b, apply_manifest o = .ok b → b = true := by
    intro b hb
    cases o with
    | exited c e =>
      by_cases hc : c = 0
      · subst hc
        simp [apply_manifest] at hb
        exact hb
      · simp [apply_manifest, hc] at hb
    | binaryMissing => simp [apply_manifest] at hb
    | execError m => simp [apply_manifest] at hb
  refine ⟨h1, fun hb => by simpa using h1 false hb, fun e => rfl, ?_, rfl⟩
  intro c e hc
  simp [apply_manifest, hc, Except.isOk, Except.toBool]

/-- C10 witness: a zero exit yields `True`, a non-zero exit raises. -/
theorem C10_apply_manifest_witness :
    apply_manifest (.exited 0 "") = .ok true
    ∧ (apply_manifest (.exited 1 "denied")).isOk = false := by
  refine ⟨(C10_apply_manifest_never_false (.exited 0 "")).2.2.1 "", ?_⟩
  exact (C10_apply_manifest_never_false (.exited 1 "denied")).2.2.2.1 1 "denied" (by decide)

/-! ## Scan engine lemmas -/

/-- Dict update/lookup interaction. -/
theorem lookupA_updA (m : List (String × String)) (k v x : String) :
    lookupA (updA m k v) x = if x = k then some v else lookupA m x := by
  induction m with
  | nil =>
    simp only [updA, lookupA]
    by_cases hx : x = k
    · subst hx; simp
    · rw [if_neg (fun h => hx h.symm), if_neg hx]
  | cons p rest ih =>
    obtain ⟨k', v'⟩ := p
    simp only [updA]
    by_cases h1 : k' = k
    · subst h1
      simp only [if_pos rfl, lookupA]
      by_cases hx : k' = x
      · subst hx; simp
      · rw [if_neg hx, if_neg (fun h => hx h.symm), if_neg hx]
    · rw [if_neg h1]
      simp only [lookupA]
      by_cases hx : k' = x
      · subst hx
        rw [if_pos rfl, if_neg h1, if_pos rfl]
      · rw [if_neg hx, ih, if_neg hx]

/-- The error pass leaves untouched keys alone. -/
theorem errFold_frame (rs : List SResource) (m : List (String × String)) (x : String)
    (hx : ∀ r ∈ rs, r.uid ≠ x) :
    lookupA (errFold rs m) x = lookupA m x := by
  induction rs generalizing m with
  | nil => rfl
  | cons r rest ih =>
    simp only [errFold, List.foldl_cons] at *
    rw [ih _ (fun r' h => hx r' (List.mem_cons_of_mem _ h)), lookupA_updA,
      if_neg (fun h => hx r (List.mem_cons_self _ _) h.symm)]

/-- The error pass marks every key of the batch `error`. -/
theorem errFold_mem (rs : List SResource) (m : List (String × String)) (x : String)
    (hx : x ∈ rs.map (·.uid)) :
    lookupA (errFold rs m) x = some "error" := by
  induction rs generalizing m with
  | nil => simp at hx
  | cons r rest ih =>
    simp only [errFold, List.foldl_cons] at *
    by_cases hmem : x ∈ rest.map (·.uid)
    · exact ih _ hmem
    · have hx0 : r.uid = x := by
        simp only [List.map_cons, List.mem_cons] at hx
        rcases hx with h | h
        · exact h.symm
        · exact absurd h hmem
      have hfr : ∀ r' ∈ rest, r'.uid ≠ x := by
        intro r' hr' he
        exact hmem (List.mem_map.mpr ⟨r', hr', he⟩)
      have := errFold_frame rest (updA m r.uid "error") x hfr
      simp only [errFold] at this
      rw [this, lookupA_updA, if_pos hx0.symm]

/-- The mark-as-done pass leaves untouched keys alone. -/
theorem markFold_frame (rs : List SResource) (m : List (String × String)) (x : String)
    (hx : ∀ r ∈ rs, r.uid ≠ x) :
    lookupA (markFold rs m) x = lookupA m x := by
  induction rs generalizing m with
  | nil => rfl
  | cons r rest ih =>
    simp only [markFold, List.foldl_cons] at *
    rw [ih _ (fun r' h => hx r' (List.mem_cons_of_mem _ h))]
    split
    · rfl
    · rw [lookupA_updA, if_neg (fun h => hx r (List.mem_cons_self _ _) h.symm)]

/-- The mark-as-done pass never downgrades an `error` mark. -/
theorem markFold_keep_error (rs : List SResource) (m : List (String × String)) (x : String)
    (hx : lookupA m x = some "error") :
    lookupA (markFold rs m) x = some "error" := by
  induction rs generalizing m with
  | nil => exact hx
  | cons r rest ih =>
    simp only [markFold, List.foldl_cons] at *
    by_cases hc : lookupA m r.uid == some "error"
    · rw [if_pos hc]
      exact ih _ hx
    · rw [if_neg hc]
      refine ih _ ?_
      rw [lookupA_updA]
      rw [if_neg ?hne]
      · exact hx
      · intro he
        rw [← he, hx] at hc
        exact hc (by simp)

/-- The mark-as-done pass marks a batch member `analyzed` when it was not
`error` before the pass (given distinct uids within the batch). -/
theorem markFold_analyzed (rs : List SResource) (m : List (String × String)) (r : SResource)
    (hnd : (rs.map (·.uid)).Nodup) (hr : r ∈ rs) (hx : lookupA m r.uid ≠ some "error") :
    lookupA (markFold rs m) r.uid = some "analyzed" := by
  induction rs generalizing m with
  | nil => simp at hr
  | cons r' rest ih =>
    simp only [markFold, List.foldl_cons] at *
    rcases List.mem_cons.mp hr with heq | hmem
    · subst heq
      have hfr : ∀ r'' ∈ rest, r''.uid ≠ r.uid := by
        intro r'' h2 he
        exact (List.nodup_cons.mp hnd).1 (List.mem_map.mpr ⟨r'', h2, he⟩)
      have hbe : ¬ (lookupA m r.uid == some "error") = true := by
        simpa using hx
      rw [if_neg hbe]
      have := markFold_frame rest (updA m r.uid "analyzed") r.uid hfr
      simp only [markFold] at this
      rw [this, lookupA_updA, if_pos rfl]
    · by_cases huid : r'.uid = r.uid
      · exact absurd (List.mem_map.mpr ⟨r, hmem, huid.symm⟩) (List.nodup_cons.mp hnd).1
      · split
        · exact ih _ (List.nodup_cons.mp hnd).2 hmem hx
        · refine ih _ (List.nodup_cons.mp hnd).2 hmem ?_
          rw [lookupA_updA, if_neg (fun h => huid h.symm)]
          exact hx

/-- The snapshot build leaves untouched keys alone. -/
theorem snapFold_frame (all : List SResource) (m : List (String × String)) (x : String)
    (hx : ∀ r ∈ all, r.uid ≠ x) :
    lookupA (snapFold all m) x = lookupA m x := by
  induction all generalizing m with
  | nil => rfl
  | cons r rest ih =>
    simp only [snapFold, List.foldl_cons] at *
    rw [ih _ (fun r' h => hx r' (List.mem_cons_of_mem _ h)), lookupA_updA,
      if_neg (fun h => hx r (List.mem_cons_self _ _) h.symm)]

/-- With distinct uids, the built snapshot maps every fetched resource's uid
to its version token. -/
theorem snapFold_lookup (all : List SResource) (m : List (String × String)) (r : SResource)
    (hnd : (all.map (·.uid)).Nodup) (hr : r ∈ all) :
    lookupA (snapFold all m) r.uid = some r.rv := by
  induction all generalizing m with
  | nil => simp at hr
  | cons r' rest ih =>
    simp only [snapFold, List.foldl_cons] at *
    rcases List.mem_cons.mp hr with heq | hmem
    · subst heq
      have hfr : ∀ r'' ∈ rest, r''.uid ≠ r.uid := by
        intro r'' h2 he
        exact (List.nodup_cons.mp hnd).1 (List.mem_map.mpr ⟨r'', h2, he⟩)
      have := snapFold_frame rest (updA m r.uid r.rv) r.uid hfr
      simp only [snapFold] at this
      rw [this, lookupA_updA, if_pos rfl]
    · exact ih _ (List.nodup_cons.mp hnd).2 hmem

/-- The classification step always records the version token. -/
theorem classifyStep_snap (cfg : ScanCfg) (acc : ClassifyAcc) (r : SResource) :
    (classifyStep cfg acc r).snap = updA acc.snap r.uid r.rv := by
  simp only [classifyStep]
  repeat' split
  all_goals rfl

/-- The classification step queues exactly the filter-passing, non-ignored,
non-skipped resources. -/
theorem classifyStep_queue (cfg : ScanCfg) (acc : ClassifyAcc) (r : SResource) :
    (classifyStep cfg acc r).queue
      = if queuedP cfg r then acc.queue ++ [r] else acc.queue := by
  by_cases h1 : passFilter cfg r <;>
    by_cases h2 : r.ns ∈ cfg.ignoredNamespaces <;>
    by_cases h3 : smartSkip cfg r <;>
    simp [classifyStep, queuedP, h1, h2, h3]

/-- The classification step's status write. -/
theorem classifyStep_rstatus (cfg : ScanCfg) (acc : ClassifyAcc) (r : SResource) :
    (classifyStep cfg acc r).rstatus
      = if passFilter cfg r then updA acc.rstatus r.uid (classMark cfg r)
        else acc.rstatus := by
  by_cases h1 : passFilter cfg r <;>
    by_cases h2 : r.ns ∈ cfg.ignoredNamespaces <;>
    by_cases h3 : smartSkip cfg r <;>
    simp [classifyStep, classMark, h1, h2, h3]

/-- The classification loop's queue is the `queuedP` filter, in input order. -/
theorem classify_fold_queue (cfg : ScanCfg) (all : List SResource) :
    ∀ acc : ClassifyAcc,
      (all.foldl (classifyStep cfg) acc).queue = acc.queue ++ all.filter (queuedP cfg) := by
  induction all with
  | nil => intro acc; simp
  | cons r rest ih =>
    intro acc
    simp only [List.foldl_cons, ih, classifyStep_queue, List.filter_cons]
    split <;> simp

/-- The classification loop's snapshot is the full version-token build. -/
theorem classify_fold_snap (cfg : ScanCfg) (all : List SResource) :
    ∀ acc : ClassifyAcc,
      (all.foldl (classifyStep cfg) acc).snap = snapFold all acc.snap := by
  induction all with
  | nil => intro acc; rfl
  | cons r rest ih =>
    intro acc
    simp only [List.foldl_cons, ih, classifyStep_snap, snapFold]

/-- The classification loop leaves status keys of unseen uids alone. -/
theorem classify_fold_rstatus_frame (cfg : ScanCfg) (all : List SResource) :
    ∀ (acc : ClassifyAcc) (x : String), (∀ r ∈ all, r.uid ≠ x) →
      lookupA (all.foldl (classifyStep cfg) acc).rstatus x = lookupA acc.rstatus x := by
  induction all with
  | nil => intro acc x _; rfl
  | cons r rest ih =>
    intro acc x hx
    simp only [List.foldl_cons]
    rw [ih _ x (fun r' h => hx r' (List.mem_cons_of_mem _ h)), classifyStep_rstatus]
    split
    · rw [lookupA_updA, if_neg (fun h => hx r (List.mem_cons_self _ _) h.symm)]
    · rfl

/-- With distinct uids, the classification loop records `classMark` for
every filter-passing resource. -/
theorem classify_fold_rstatus (cfg : ScanCfg) (all : List SResource) :
    ∀ (acc : ClassifyAcc) (r : SResource), (all.map (·.uid)).Nodup → r ∈ all →
      passFilter cfg r = true →
      lookupA (all.foldl (classifyStep cfg) acc).rstatus r.uid = some (classMark cfg r) := by
  induction all with
  | nil => intro acc r _ hr; simp at hr
  | cons r' rest ih =>
    intro acc r hnd hr hpf
    simp only [List.foldl_cons]
    rcases List.mem_cons.mp hr with heq | hmem
    · subst heq
      have hfr : ∀ r'' ∈ rest, r''.uid ≠ r.uid := by
        intro r'' h2 he
        exact (List.nodup_cons.mp hnd).1 (List.mem_map.mpr ⟨r'', h2, he⟩)
      rw [classify_fold_rstatus_frame cfg rest _ _ hfr, classifyStep_rstatus, if_pos hpf,
        lookupA_updA, if_pos rfl]
    · exact ih _ r (List.nodup_cons.mp hnd).2 hmem hpf

/-- Elements of the accumulator survive the namespace-order build. -/
theorem nsOrderAux_sub (q : List SResource) :
    ∀ (acc : List String) (x : String), x ∈ acc → x ∈ nsOrderAux acc q := by
  induction q with
  | nil => intro acc x hx; exact hx
  | cons r rest ih =>
    intro acc x hx
    simp only [nsOrderAux]
    split
    · exact ih _ x hx
    · exact ih _ x (List.mem_append_left _ hx)

/-- Every queued resource's namespace appears in the batch order. -/
theorem nsOrder_mem_aux (q : List SResource) :
    ∀ (acc : List String) (r : SResource), r ∈ q → r.ns ∈ nsOrderAux acc q := by
  induction q with
  | nil => intro acc r hr; simp at hr
  | cons r' rest ih =>
    intro acc r hr
    rcases List.mem_cons.mp hr with heq | hmem
    · subst heq
      simp only [nsOrderAux]
      split
      · next hc => exact nsOrderAux_sub rest _ _ (by simpa using hc)
      · exact nsOrderAux_sub rest _ _ (List.mem_append_right _ (List.mem_singleton.mpr rfl))
    · simp only [nsOrderAux]
      split <;> exact ih _ r hmem

/-- The namespace batch order has no duplicates. -/
theorem nsOrder_nodup_aux (q : List SResource) :
    ∀ acc : List String, acc.Nodup → (nsOrderAux acc q).Nodup := by
  induction q with
  | nil => intro acc h; exact h
  | cons r rest ih =>
    intro acc h
    simp only [nsOrderAux]
    split
    · exact ih _ h
    · next hc =>
      refine ih _ ?_
      simp only [List.nodup_append, List.nodup_singleton]
      exact ⟨h, by simp, by simpa using hc⟩

/-- The index of a member is within bounds. -/
theorem idxOfStr_lt (l : List String) (s : String) (h : s ∈ l) :
    idxOfStr l s < l.length := by
  induction l with
  | nil => simp at h
  | cons x rest ih =>
    simp only [idxOfStr, List.length_cons]
    split
    · omega
    · next hne =>
      rcases List.mem_cons.mp h with heq | hmem
      · exact absurd heq.symm hne
      · have := ih hmem
        omega

/-- A namespace batch leaves status keys outside the batch alone. -/
theorem runBatch_frame (cfg : ScanCfg) (queue : List SResource) (total i : Nat)
    (ns : String) (acc : BatchAcc) (x : String)
    (hx : ∀ r ∈ queue.filter (fun r => r.ns == ns), r.uid ≠ x) :
    lookupA (runBatch cfg queue total i ns acc).rstatus x = lookupA acc.rstatus x := by
  simp only [runBatch]
  cases cfg.aiResults i with
  | ok issues => exact markFold_frame _ _ _ hx
  | error m => rw [markFold_frame _ _ _ hx, errFold_frame _ _ _ hx]

/-- A namespace batch marks each of its resources `analyzed` when the AI
call succeeded and `error` when it raised. -/
theorem runBatch_mark (cfg : ScanCfg) (queue : List SResource) (total i : Nat)
    (ns : String) (acc : BatchAcc) (r : SResource)
    (hnd : ((queue.filter (fun r => r.ns == ns)).map (·.uid)).Nodup)
    (hr : r ∈ queue) (hns : r.ns = ns)
    (hinit : lookupA acc.rstatus r.uid ≠ some "error") :
    lookupA (runBatch cfg queue total i ns acc).rstatus r.uid
      = some (if (cfg.aiResults i).isOk then "analyzed" else "error") := by
  have hrs : r ∈ queue.filter (fun r => r.ns == ns) :=
    List.mem_filter.mpr ⟨hr, by simp [hns]⟩
  simp only [runBatch]
  cases h : cfg.aiResults i with
  | ok issues =>
    simp only [Except.isOk, Except.toBool, if_pos]
    exact markFold_analyzed _ _ _ hnd hrs hinit
  | error m =>
    simp only [Except.isOk, Except.toBool]
    refine markFold_keep_error _ _ _ ?_
    exact errFold_mem _ _ _ (List.mem_map.mpr ⟨r, hrs, rfl⟩)

/-- Without a cancellation request the batch loop is never cancelled. -/
theorem runBatches_no_cancel (cfg : ScanCfg) (queue : List SResource) (total : Nat)
    (hnc : cfg.cancelAfterBatch = none) :
    ∀ (nss : List String) (i : Nat) (acc : BatchAcc),
      (runBatches cfg queue total nss i acc).2 = false := by
  intro nss
  induction nss with
  | nil => intro i acc; rfl
  | cons ns rest ih =>
    intro i acc
    simp only [runBatches, hnc]
    rw [if_neg (fun h => Option.noConfusion h)]
    exact ih (i + 1) _

/-- A cancellation point inside the batch range stops the loop. -/
theorem runBatches_cancelled (cfg : ScanCfg) (queue : List SResource) (total k : Nat)
    (hc : cfg.cancelAfterBatch = some k) :
    ∀ (nss : List String) (i : Nat) (acc : BatchAcc),
      i ≤ k → k < i + nss.length →
      (runBatches cfg queue total nss i acc).2 = true := by
  intro nss
  induction nss with
  | nil => intro i acc h1 h2; simp at h2; omega
  | cons ns rest ih =>
    intro i acc h1 h2
    simp only [runBatches, hc]
    by_cases hik : k = i
    · subst hik; simp
    · rw [if_neg (fun h => hik (Option.some.inj h))]
      refine ih (i + 1) _ (by omega) ?_
      simp only [List.length_cons] at h2
      omega

/-- The batch loop leaves status keys outside all its batches alone. -/
theorem runBatches_frame (cfg : ScanCfg) (queue : List SResource) (total : Nat) :
    ∀ (nss : List String) (i : Nat) (acc : BatchAcc) (x : String),
      (∀ ns ∈ nss, ∀ r ∈ queue.filter (fun r => r.ns == ns), r.uid ≠ x) →
      lookupA ((runBatches cfg queue total nss i acc).1).rstatus x
        = lookupA acc.rstatus x := by
  intro nss
  induction nss with
  | nil => intro i acc x _; rfl
  | cons ns rest ih =>
    intro i acc x hx
    simp only [runBatches]
    split
    · exact runBatch_frame cfg queue total i ns acc x
        (hx ns (List.mem_cons_self _ _))
    · rw [ih (i + 1) _ x (fun ns' h => hx ns' (List.mem_cons_of_mem _ h)),
        runBatch_frame cfg queue total i ns acc x (hx ns (List.mem_cons_self _ _))]

/-- With distinct uids, distinct batch namespaces and no cancellation, the
batch loop's final status of a queued resource is `analyzed` or `error`
exactly according to its own batch's AI outcome. -/
theorem runBatches_mark (cfg : ScanCfg) (queue : List SResource) (total : Nat)
    (hq : (queue.map (·.uid)).Nodup) (hnc : cfg.cancelAfterBatch = none) :
    ∀ (nss : List String) (i : Nat) (acc : BatchAcc), nss.Nodup →
      (∀ r ∈ queue, r.ns ∈ nss → lookupA acc.rstatus r.uid ≠ some "error") →
      ∀ r ∈ queue, r.ns ∈ nss →
      lookupA ((runBatches cfg queue total nss i acc).1).rstatus r.uid
        = some (if (cfg.aiResults (i + idxOfStr nss r.ns)).isOk then "analyzed" else "error") := by
  intro nss
  induction nss with
  | nil => intro i acc _ _ r _ hns; simp at hns
  | cons ns rest ih =>
    intro i acc hnd hinit r hr hns
    have hqinj : ∀ r' ∈ queue, r'.uid = r.uid → r' = r := by
      intro r' h1 h2
      exact List.inj_on_of_nodup_map hq h1 hr h2
    have hfilter_nd : ∀ ns', ((queue.filter (fun r => r.ns == ns')).map (·.uid)).Nodup := by
      intro ns'
      have hsub : List.Sublist ((queue.filter (fun r => r.ns == ns')).map (fun x => x.uid))
          (queue.map (fun x => x.uid)) :=
        List.Sublist.map _ (List.filter_sublist queue)
      exact List.Nodup.sublist hsub hq
    simp only [runBatches, hnc]
    rw [if_neg (fun h => Option.noConfusion h)]
    rcases List.mem_cons.mp hns with hcase | hcase
    · -- r belongs to the head batch
      have hidx : idxOfStr (ns :: rest) r.ns = 0 := by
        simp [idxOfStr, hcase]
      rw [hidx]
      have hmarked := runBatch_mark cfg queue total i ns acc r (hfilter_nd ns) hr hcase
        (hinit r hr hns)
      have hfr : ∀ ns' ∈ rest, ∀ r' ∈ queue.filter (fun r => r.ns == ns'), r'.uid ≠ r.uid := by
        intro ns' hns' r' hr' he
        obtain ⟨hr'q, hr'ns⟩ := List.mem_filter.mp hr'
        have : r' = r := hqinj r' hr'q he
        subst this
        rw [hcase] at hr'ns
        have : ns = ns' := by simpa using hr'ns
        exact (List.nodup_cons.mp hnd).1 (this ▸ hns')
      rw [runBatches_frame cfg queue total rest (i + 1) _ r.uid hfr]
      simpa using hmarked
    · -- r belongs to a later batch
      have hne : r.ns ≠ ns := by
        intro he
        exact (List.nodup_cons.mp hnd).1 (he ▸ hcase)
      have hidx : idxOfStr (ns :: rest) r.ns = idxOfStr rest r.ns + 1 := by
        have hns' : ¬ (ns = r.ns) := fun h => hne h.symm
        simp [idxOfStr, hns']
      have huntouched : ∀ r' ∈ queue, r'.ns ∈ rest →
          lookupA (runBatch cfg queue total i ns acc).rstatus r'.uid
            = lookupA acc.rstatus r'.uid := by
        intro r' hr'q hr'rest
        refine runBatch_frame cfg queue total i ns acc r'.uid ?_
        intro r'' hr'' he
        obtain ⟨hr''q, hr''ns⟩ := List.mem_filter.mp hr''
        have : r'' = r' := List.inj_on_of_nodup_map hq hr''q hr'q he
        subst this
        have : r''.ns = ns := by simpa using hr''ns
        exact (List.nodup_cons.mp hnd).1 (this ▸ hr'rest)
      have := ih (i + 1) (runBatch cfg queue total i ns acc) (List.nodup_cons.mp hnd).2
        (fun r' h1 h2 => by rw [huntouched r' h1 h2]; exact hinit r' h1 (List.mem_cons_of_mem _ h2))
        r hr hcase
      have harith : i + (idxOfStr rest r.ns + 1) = (i + 1) + idxOfStr rest r.ns := by omega
      rw [hidx, harith]
      exact this

/-- A session that completes commits the full version-token snapshot built
over every fetched resource. -/
theorem runScan_completed_snapshot (cfg : ScanCfg) (all : List SResource)
    (hf : cfg.fetch = .ok all) (hdone : (runScan cfg).status = .completed) :
    (runScan cfg).snapshot = snapFold all [] := by
  by_cases hq : (classify cfg all).queue.isEmpty = true
  · simp only [runScan, hf, if_pos hq]
    exact classify_fold_snap cfg all _
  · by_cases hflag : (runBatches cfg (classify cfg all).queue (classify cfg all).queue.length
        (nsOrder (classify cfg all).queue) 0 ⟨(classify cfg all).rstatus, [], 0, 0⟩).2 = true
    · exfalso
      simp only [runScan, hf, if_neg hq, if_pos hflag] at hdone
      exact ScanStatus.noConfusion hdone
    · simp only [runScan, hf, if_neg hq, if_neg hflag]
      exact classify_fold_snap cfg all _

/-- A resource is queued exactly when it passes the filter, is not ignored
and is not smart-skipped; its classification mark is then `pending`. -/
theorem queuedP_mark (cfg : ScanCfg) (r : SResource) (h : queuedP cfg r = true) :
    passFilter cfg r = true ∧ classMark cfg r = "pending" := by
  simp only [queuedP, Bool.and_eq_true, Bool.not_eq_true'] at h
  obtain ⟨⟨h1, h2⟩, h3⟩ := h
  have h2' : r.ns ∉ cfg.ignoredNamespaces := by simpa using h2
  refine ⟨h1, ?_⟩
  simp only [classMark]
  rw [if_neg (by simp [h2']), if_neg (by simp [h3])]

/-- Members of the classification queue come from the fetched list and
satisfy `queuedP`. -/
theorem classify_queue_mem (cfg : ScanCfg) (all : List SResource) (r : SResource)
    (hr : r ∈ (classify cfg all).queue) : r ∈ all ∧ queuedP cfg r = true := by
  rw [classify, classify_fold_queue] at hr
  simp only [List.nil_append] at hr
  exact List.mem_filter.mp hr

/-- The queue inherits distinct uids from the fetched list. -/
theorem classify_queue_nodup (cfg : ScanCfg) (all : List SResource)
    (hnd : (all.map (·.uid)).Nodup) :
    ((classify cfg all).queue.map (·.uid)).Nodup := by
  rw [classify, classify_fold_queue]
  simp only [List.nil_append]
  have hsub : List.Sublist ((all.filter (queuedP cfg)).map (fun x => x.uid))
      (all.map (fun x => x.uid)) :=
    List.Sublist.map _ (List.filter_sublist all)
  exact List.Nodup.sublist hsub hnd

/-- C4 (amended): cancelling a scan after batch `k` of its namespace batches
finalizes the session as `stopped` and leaves the committed per-cluster
snapshot unchanged, but the stored results issue list stays empty — issues
discovered in batches `1..k` live only in a local accumulator and are
discarded, not retained. -/
theorem C4_cancel_discards (cfg : ScanCfg) (all : List SResource) (k : Nat)
    (hf : cfg.fetch = .ok all) (hc : cfg.cancelAfterBatch = some k)
    (hk : k < (nsOrder (classify cfg all).queue).length) :
    (runScan cfg).status = .stopped
    ∧ (runScan cfg).snapshot = cfg.prevSnapshot
    ∧ (runScan cfg).resultIssues = [] := by
  have hqne : ¬ (classify cfg all).queue.isEmpty = true := by
    cases hqe : (classify cfg all).queue with
    | nil => rw [hqe] at hk; simp [nsOrder, nsOrderAux] at hk
    | cons a l => simp [hqe]
  have hflag : (runBatches cfg (classify cfg all).queue (classify cfg all).queue.length
      (nsOrder (classify cfg all).queue) 0 ⟨(classify cfg all).rstatus, [], 0, 0⟩).2 = true :=
    runBatches_cancelled cfg _ _ k hc _ 0 _ (by omega) (by simpa using hk)
  simp only [runScan, hf, if_neg hqne, if_pos hflag]
  exact ⟨by trivial, by trivial, by trivial⟩

/-- C4 counterexample to the claim as stated: cancelling `cfgCancelAfter1`
after batch 1 of 2 — whose AI call discovered `issueHigh` — leaves the
stored results list empty rather than retaining that issue (snapshot and
status behave as claimed). -/
theorem C4_retention_counterexample :
    cfgCancelAfter1.aiResults 0 = .ok [issueHigh]
    ∧ (runScan cfgCancelAfter1).status = .stopped
    ∧ (runScan cfgCancelAfter1).snapshot = cfgCancelAfter1.prevSnapshot
    ∧ (runScan cfgCancelAfter1).resultIssues = []
    ∧ ¬ (runScan cfgCancelAfter1).resultIssues = [issueHigh] := by
  refine ⟨rfl, ?_⟩
  decide

/-- C4 witness: the amended theorem applied to the concrete cancelled scan. -/
theorem C4_cancel_discards_witness :
    (runScan cfgCancelAfter1).status = .stopped
    ∧ (runScan cfgCancelAfter1).snapshot = [] := by
  have h := C4_cancel_discards cfgCancelAfter1 [rA, rB] 0 rfl rfl (by decide)
  exact ⟨h.1, h.2.1⟩

/-- C5 (code bug): the issue-accumulation loop extends the stored list once
per issue, so a completed scan whose single namespace batch returned two
issues stores each twice and reports four issues in its summary, instead of
storing the concatenation of the batch results with each issue once. -/
theorem C5_issues_duplicated :
    cfgTwoIssues.aiResults 0 = .ok [issueHigh, issueLow]
    ∧ (runScan cfgTwoIssues).status = .completed
    ∧ (runScan cfgTwoIssues).resultIssues = [issueHigh, issueLow, issueHigh, issueLow]
    ∧ ¬ (runScan cfgTwoIssues).resultIssues = [issueHigh, issueLow]
    ∧ (runScan cfgTwoIssues).summary = "Scan complete. Found 4 issues across 2 resources." := by
  refine ⟨rfl, ?_⟩
  decide

/-- C6: after a completed scan of a cluster, a second smart scan over the
same resources with unchanged version tokens queues zero resources, marks
every non-ignored filter-passing resource already-analyzed, completes, and
reports the no-changes summary. -/
theorem C6_smart_idempotent (cfg1 cfg2 : ScanCfg) (all : List SResource)
    (h1 : cfg1.fetch = .ok all) (hnd : (all.map (·.uid)).Nodup)
    (hdone : (runScan cfg1).status = .completed)
    (h2f : cfg2.fetch = .ok all) (h2t : cfg2.scanType = .smart)
    (h2p : cfg2.prevSnapshot = (runScan cfg1).snapshot) :
    (runScan cfg2).totalResources = 0
    ∧ (runScan cfg2).status = .completed
    ∧ (runScan cfg2).summary = "No changes detected or no resources found matching filters."
    ∧ ∀ r ∈ all, r.ns ∉ cfg2.ignoredNamespaces → passFilter cfg2 r = true →
        lookupA (runScan cfg2).resourceStatus r.uid = some "analyzed" := by
  have hsnap : (runScan cfg1).snapshot = snapFold all [] :=
    runScan_completed_snapshot cfg1 all h1 hdone
  have hskip : ∀ r ∈ all, smartSkip cfg2 r = true := by
    intro r hr
    simp only [smartSkip, h2t, h2p, hsnap]
    rw [snapFold_lookup all [] r hnd hr]
    simp
  have hqueue : (classify cfg2 all).queue = [] := by
    rw [classify, classify_fold_queue]
    simp only [List.nil_append]
    rw [List.filter_eq_nil_iff]
    intro r hr
    simp [queuedP, hskip r hr]
  have hq : (classify cfg2 all).queue.isEmpty = true := by simp [hqueue]
  refine ⟨?_, ?_, ?_, ?_⟩
  · simp only [runScan, h2f, if_pos hq]
  · simp only [runScan, h2f, if_pos hq]
  · simp only [runScan, h2f, if_pos hq]
  · intro r hr hign hpf
    simp only [runScan, h2f, if_pos hq]
    rw [classify]
    rw [classify_fold_rstatus cfg2 all _ r hnd hr hpf]
    simp [classMark, hign, hskip r hr]

/-- C6 witness: the concrete unchanged-cluster rescan. -/
theorem C6_smart_idempotent_witness :
    (runScan cfgSecondScan).totalResources = 0
    ∧ (runScan cfgSecondScan).status = .completed
    ∧ lookupA (runScan cfgSecondScan).resourceStatus "Pod/alpha/web" = some "analyzed" := by
  have h := C6_smart_idempotent cfgFirstScan cfgSecondScan [rA, rB]
    rfl (by decide) (by decide) rfl rfl rfl
  refine ⟨h.1, h.2.1, ?_⟩
  have := h.2.2.2 rA (by decide) (by decide) (by decide)
  exact this

/-- C7: when exactly one namespace batch's AI call fails, the session still
completes, exactly that batch's queued resources are marked `error`, and
every other queued resource is marked `analyzed`. -/
theorem C7_namespace_error_contained (cfg : ScanCfg) (all : List SResource) (j : Nat)
    (e : String)
    (hf : cfg.fetch = .ok all) (hnd : (all.map (·.uid)).Nodup)
    (hnc : cfg.cancelAfterBatch = none)
    (hj : j < (nsOrder (classify cfg all).queue).length)
    (herr : cfg.aiResults j = .error e)
    (hok : ∀ i, i < (nsOrder (classify cfg all).queue).length → i ≠ j →
      (cfg.aiResults i).isOk = true) :
    (runScan cfg).status = .completed
    ∧ ∀ r ∈ (classify cfg all).queue,
        lookupA (runScan cfg).resourceStatus r.uid
          = some (if idxOfStr (nsOrder (classify cfg all).queue) r.ns = j
                  then "error" else "analyzed") := by
  have hqne : ¬ (classify cfg all).queue.isEmpty = true := by
    cases hqe : (classify cfg all).queue with
    | nil => rw [hqe] at hj; simp [nsOrder, nsOrderAux] at hj
    | cons a l => simp [hqe]
  have hflag : ¬ (runBatches cfg (classify cfg all).queue (classify cfg all).queue.length
      (nsOrder (classify cfg all).queue) 0 ⟨(classify cfg all).rstatus, [], 0, 0⟩).2 = true := by
    rw [runBatches_no_cancel cfg _ _ hnc]
    simp
  constructor
  · simp only [runScan, hf, if_neg hqne, if_neg hflag]
  · intro r hr
    simp only [runScan, hf, if_neg hqne, if_neg hflag]
    have hinit : ∀ r' ∈ (classify cfg all).queue,
        r'.ns ∈ nsOrder (classify cfg all).queue →
        lookupA (ClassifyAcc.rstatus (classify cfg all)) r'.uid ≠ some "error" := by
      intro r' hr' _
      obtain ⟨hall, hqp⟩ := classify_queue_mem cfg all r' hr'
      obtain ⟨hpf, hmark⟩ := queuedP_mark cfg r' hqp
      rw [show (classify cfg all).rstatus
          = (all.foldl (classifyStep cfg) ⟨[], [], [], 0, []⟩).rstatus from rfl]
      rw [classify_fold_rstatus cfg all _ r' hnd hall hpf, hmark]
      simp
    have hmem_ns : r.ns ∈ nsOrder (classify cfg all).queue :=
      nsOrder_mem_aux _ [] r hr
    have hval := runBatches_mark cfg (classify cfg all).queue
      ((classify cfg all).queue.length)
      (classify_queue_nodup cfg all hnd) hnc
      (nsOrder (classify cfg all).queue) 0 ⟨(classify cfg all).rstatus, [], 0, 0⟩
      (nsOrder_nodup_aux _ [] List.nodup_nil) hinit r hr hmem_ns
    rw [hval]
    simp only [Nat.zero_add]
    by_cases hij : idxOfStr (nsOrder (classify cfg all).queue) r.ns = j
    · rw [if_pos hij, hij, herr]
      simp [Except.isOk, Except.toBool]
    · rw [if_neg hij,
        hok (idxOfStr (nsOrder (classify cfg all).queue) r.ns) (idxOfStr_lt _ _ hmem_ns) hij]
      simp

/-- C7 witness: the concrete two-namespace scan with a failing first batch. -/
theorem C7_namespace_error_contained_witness :
    (runScan cfgBatchError).status = .completed
    ∧ lookupA (runScan cfgBatchError).resourceStatus "Pod/alpha/web" = some "error"
    ∧ lookupA (runScan cfgBatchError).resourceStatus "Pod/beta/db" = some "analyzed" := by
  have h := C7_namespace_error_contained cfgBatchError [rA, rB] 0 "LLM backend unreachable"
    rfl (by decide) rfl (by decide) rfl (by decide)
  exact ⟨h.1, by decide, by decide⟩

/-! ## Audit chain lemmas -/

/-- Indexing an append below the left length. -/
theorem nth_append_lt {α : Type} : ∀ (l l' : List α) (i : Nat), i < l.length →
    nthEntry (l ++ l') i = nthEntry l i := by
  intro l
  induction l with
  | nil => intro l' i h; simp at h
  | cons a rest ih =>
    intro l' i h
    cases i with
    | zero => rfl
    | succ j => exact ih l' j (by simpa using h)

/-- Indexing a single-element append at the left length. -/
theorem nth_append_len {α : Type} : ∀ (l : List α) (a : α),
    nthEntry (l ++ [a]) l.length = some a := by
  intro l
  induction l with
  | nil => intro a; rfl
  | cons b rest ih => intro a; exact ih a

/-- Indexing a single-element append beyond the left length. -/
theorem nth_append_gt {α : Type} : ∀ (l : List α) (a : α) (i : Nat), l.length < i →
    nthEntry (l ++ [a]) i = none := by
  intro l
  induction l with
  | nil =>
    intro a i h
    cases i with
    | zero => simp at h
    | succ j => cases j <;> rfl
  | cons b rest ih =>
    intro a i h
    cases i with
    | zero => simp at h
    | succ j => exact ih a j (by simpa using h)

/-- In-range indices hit an element. -/
theorem nth_lt_isSome {α : Type} : ∀ (l : List α) (i : Nat), i < l.length →
    ∃ a, nthEntry l i = some a := by
  intro l
  induction l with
  | nil => intro i h; simp at h
  | cons b rest ih =>
    intro i h
    cases i with
    | zero => exact ⟨b, rfl⟩
    | succ j => exact ih j (by simpa using h)

/-- A hit index is in range. -/
theorem nth_some_lt {α : Type} : ∀ (l : List α) (i : Nat) (a : α),
    nthEntry l i = some a → i < l.length := by
  intro l
  induction l with
  | nil => intro i a h; exact Option.noConfusion h
  | cons b rest ih =>
    intro i a h
    cases i with
    | zero => simp
    | succ j =>
      have := ih j a h
      simpa using Nat.succ_lt_succ this

/-- Setting then reading the same in-range index. -/
theorem nth_set_self {α : Type} : ∀ (l : List α) (k : Nat) (a : α), k < l.length →
    nthEntry (l.set k a) k = some a := by
  intro l
  induction l with
  | nil => intro k a h; simp at h
  | cons b rest ih =>
    intro k a h
    cases k with
    | zero => rfl
    | succ j => exact ih j a (by simpa using h)

/-- Setting leaves the other indices alone. -/
theorem nth_set_ne {α : Type} : ∀ (l : List α) (k i : Nat) (a : α), i ≠ k →
    nthEntry (l.set k a) i = nthEntry l i := by
  intro l
  induction l with
  | nil => intro k i a _; simp [List.set]
  | cons b rest ih =>
    intro k i a h
    cases k with
    | zero =>
      cases i with
      | zero => exact absurd rfl h
      | succ j => rfl
    | succ k' =>
      cases i with
      | zero => rfl
      | succ j => exact ih k' j a (fun he => h (by rw [he]))

/-- `_get_last_hash` returns the hash of the entry at the last index. -/
theorem lastHash_get (e : AuditEntry) : ∀ (log : List AuditEntry),
    nthEntry log (log.length - 1) = some e → lastHash log = hashEntry e := by
  intro log
  induction log with
  | nil => intro h; exact Option.noConfusion h
  | cons a rest ih =>
    intro h
    cases hr : rest with
    | nil =>
      subst hr
      simp only [List.length_cons, List.length_nil, Nat.zero_add, Nat.sub_self,
        nthEntry] at h
      injection h with h
      rw [lastHash, ← h]
    | cons b rest' =>
      subst hr
      have hlen : (a :: b :: rest').length - 1 = (b :: rest').length := by
        simp
      rw [hlen] at h
      have h' : nthEntry (b :: rest') ((b :: rest').length - 1) = some e := by
        have hl2 : (b :: rest').length = ((b :: rest').length - 1) + 1 := by simp
        rw [hl2] at h
        exact h
      rw [lastHash]
      exact ih h'

/-- The three chain invariants of a well-formed log: every stored signature
is the signature of its own canonical payload, the first entry links to the
sentinel, and entry `i + 1` links to the hash of raw entry `i`. -/
def ChainInv (log : List AuditEntry) : Prop :=
  (∀ i e, nthEntry log i = some e → e.signature = payloadOf e)
  ∧ (∀ e, nthEntry log 0 = some e → e.previous_hash = .zeros64)
  ∧ (∀ i e p, nthEntry log (i + 1) = some e → nthEntry log i = some p →
      e.previous_hash = hashEntry p)

/-- The empty log satisfies the chain invariants. -/
theorem chainInv_nil : ChainInv [] :=
  ⟨fun i e h => Option.noConfusion h, fun e h => Option.noConfusion h,
    fun i e p h _ => Option.noConfusion h⟩

/-- `log_action` preserves the chain invariants. -/
theorem chainInv_log_action (log : List AuditEntry) (ts user act details : String)
    (h : ChainInv log) : ChainInv (log_action log ts user act details) := by
  obtain ⟨hsig, h0, hlink⟩ := h
  refine ⟨?_, ?_, ?_⟩
  · intro i e he
    rcases Nat.lt_trichotomy i log.length with hi | hi | hi
    · rw [log_action] at he
      rw [nth_append_lt _ _ _ hi] at he
      exact hsig i e he
    · subst hi
      rw [log_action, nth_append_len] at he
      injection he with he
      subst he
      rfl
    · rw [log_action, nth_append_gt _ _ _ hi] at he
      exact Option.noConfusion he
  · intro e he
    cases hl : log with
    | nil =>
      subst hl
      rw [log_action] at he
      simp only [List.nil_append, nthEntry] at he
      injection he with he
      subst he
      rfl
    | cons a rest =>
      subst hl
      rw [log_action, nth_append_lt _ _ _ (by simp)] at he
      exact h0 e he
  · intro i e p he hp
    rcases Nat.lt_trichotomy (i + 1) log.length with hi | hi | hi
    · rw [log_action, nth_append_lt _ _ _ hi] at he
      rw [log_action, nth_append_lt _ _ _ (by omega)] at hp
      exact hlink i e p he hp
    · rw [log_action, hi, nth_append_len] at he
      rw [log_action, nth_append_lt _ _ _ (by omega)] at hp
      injection he with he
      subst he
      have hpl : nthEntry log (log.length - 1) = some p := by
        have hidx : log.length - 1 = i := by omega
        rw [hidx]; exact hp
      have hlast := lastHash_get p log hpl
      simp only [hlast]
    · rw [log_action, nth_append_gt _ _ _ hi] at he
      exact Option.noConfusion he

/-- Every chain built by `log_action` satisfies the invariants. -/
theorem chainInv_buildChain (actions : List AuditAction) :
    ∀ log, ChainInv log → ChainInv (buildChain log actions) := by
  induction actions with
  | nil => intro log h; exact h
  | cons a rest ih =>
    intro log h
    exact ih _ (chainInv_log_action log a.ts a.user a.act a.details h)

/-- The ideal hash is injective: equal digests come from equal raw lines. -/
theorem hashEntry_inj (e e' : AuditEntry) (h : hashEntry e = hashEntry e') : e = e' := by
  obtain ⟨t, u, a, d, p, ⟨st, su, sa, sd, sp⟩⟩ := e
  obtain ⟨t', u', a', d', p', ⟨st', su', sa', sd', sp'⟩⟩ := e'
  simp only [hashEntry, HashVal.sha256.injEq] at h
  obtain ⟨h1, h2, h3, h4, h5, h6, h7, h8, h9, h10⟩ := h
  subst h1; subst h2; subst h3; subst h4; subst h5
  subst h6; subst h7; subst h8; subst h9; subst h10
  rfl

/-- A one-field flip changes the entry. -/
theorem oneFieldFlip_ne (e e' : AuditEntry) (h : oneFieldFlip e e') : e ≠ e' := by
  intro he
  subst he
  rcases h with ⟨h, -⟩ | ⟨-, h, -⟩ | ⟨-, -, h, -⟩ | ⟨-, -, -, h, -⟩ |
    ⟨-, -, -, -, h, -⟩ | ⟨-, -, -, -, -, h⟩ <;> exact h rfl

/-- A one-field flip of a self-consistently signed entry breaks its
signature verification: either the payload changed under an unchanged
signature, or the signature changed under an unchanged payload. -/
theorem oneFieldFlip_sig (e e' : AuditEntry) (hsig : e.signature = payloadOf e)
    (h : oneFieldFlip e e') : ¬ e'.signature = payloadOf e' := by
  intro hsig'
  obtain ⟨t, u, a, d, p, s⟩ := e
  obtain ⟨t', u', a', d', p', s'⟩ := e'
  simp only [payloadOf] at hsig hsig'
  rcases h with ⟨h1, h2, h3, h4, h5, h6⟩ | ⟨h1, h2, h3, h4, h5, h6⟩ |
    ⟨h1, h2, h3, h4, h5, h6⟩ | ⟨h1, h2, h3, h4, h5, h6⟩ |
    ⟨h1, h2, h3, h4, h5, h6⟩ | ⟨h1, h2, h3, h4, h5, h6⟩
  · have e6 : s' = s := h6
    have key : (⟨t', u', a', d', p'⟩ : AuditPayload) = ⟨t, u, a, d, p⟩ := by
      rw [← hsig', e6, hsig]
    injection key with k1 k2 k3 k4 k5
    exact h1 k1
  · have e6 : s' = s := h6
    have key : (⟨t', u', a', d', p'⟩ : AuditPayload) = ⟨t, u, a, d, p⟩ := by
      rw [← hsig', e6, hsig]
    injection key with k1 k2 k3 k4 k5
    exact h2 k2
  · have e6 : s' = s := h6
    have key : (⟨t', u', a', d', p'⟩ : AuditPayload) = ⟨t, u, a, d, p⟩ := by
      rw [← hsig', e6, hsig]
    injection key with k1 k2 k3 k4 k5
    exact h3 k3
  · have e6 : s' = s := h6
    have key : (⟨t', u', a', d', p'⟩ : AuditPayload) = ⟨t, u, a, d, p⟩ := by
      rw [← hsig', e6, hsig]
    injection key with k1 k2 k3 k4 k5
    exact h4 k4
  · have e6 : s' = s := h6
    have key : (⟨t', u', a', d', p'⟩ : AuditPayload) = ⟨t, u, a, d, p⟩ := by
      rw [← hsig', e6, hsig]
    injection key with k1 k2 k3 k4 k5
    exact h5 k5
  · have e6 : s' ≠ s := h6
    have e1 : t' = t := h1
    have e2 : u' = u := h2
    have e3 : a' = a := h3
    have e4 : d' = d := h4
    have e5 : p' = p := h5
    exact e6 (by rw [hsig', e1, e2, e3, e4, e5]; exact hsig.symm)

/-- A log satisfying the chain invariants passes both local checks at every
index. -/
theorem chainInv_verify (log : List AuditEntry) (h : ChainInv log) (i : Nat) :
    verifySigAt log i = true ∧ verifyPrevAt log i = true := by
  constructor
  · unfold verifySigAt
    cases hgi : nthEntry log i with
    | none => rfl
    | some e => simp [h.1 i e hgi]
  · unfold verifyPrevAt
    cases hgi : nthEntry log i with
    | none => rfl
    | some e =>
      cases i with
      | zero => simp [h.2.1 e hgi]
      | succ j =>
        cases hgj : nthEntry log j with
        | none =>
          exfalso
          have hlt : j + 1 < log.length := nth_some_lt log (j + 1) e hgi
          obtain ⟨p, hp⟩ := nth_lt_isSome log j (by omega)
          rw [hgj] at hp
          exact Option.noConfusion hp
        | some p => simp [hgj, h.2.2 j e p hgi hgj]

/-- Setting index `k` does not affect a previous-hash check that reads
neither index `k` nor `k` as predecessor. -/
theorem verifyPrevAt_set_ne (log : List AuditEntry) (k : Nat) (e' : AuditEntry) (j : Nat)
    (h1 : j ≠ k) (h2 : ∀ m, j = m + 1 → m ≠ k) :
    verifyPrevAt (log.set k e') j = verifyPrevAt log j := by
  unfold verifyPrevAt
  rw [nth_set_ne _ _ _ _ h1]
  cases j with
  | zero => rfl
  | succ m =>
    cases hgm : nthEntry log (m + 1) with
    | none => rfl
    | some f => simp [hgm, nth_set_ne log k m e' (h2 m rfl)]

/-- Setting index `k` does not affect signature checks elsewhere. -/
theorem verifySigAt_set_ne (log : List AuditEntry) (k : Nat) (e' : AuditEntry) (j : Nat)
    (h1 : j ≠ k) :
    verifySigAt (log.set k e') j = verifySigAt log j := by
  unfold verifySigAt
  rw [nth_set_ne _ _ _ _ h1]

/-- C8 (amended): in a chain built by `log_action`, every entry's
`previous_hash` is the hash of the raw previous entry (the all-zero sentinel
for the first) and every entry is signed over the canonical payload, so both
local checks pass everywhere.  Flipping one byte of stored entry `k` makes
signature verification fail at `k` and the local previous-hash check fail at
`k + 1` (when it exists); entries before `k` still verify.  Contrary to the
claim, entries from `k + 2` onward still pass their local checks — only the
cumulative chain walk flags every index from `k` on. -/
theorem C8_audit_chain_tamper (actions : List AuditAction) (k : Nat) (e e' : AuditEntry)
    (he : nthEntry (buildChain [] actions) k = some e)
    (hflip : oneFieldFlip e e') :
    (∀ f, nthEntry (buildChain [] actions) 0 = some f → f.previous_hash = .zeros64)
    ∧ (∀ i f g, nthEntry (buildChain [] actions) (i + 1) = some f →
        nthEntry (buildChain [] actions) i = some g → f.previous_hash = hashEntry g)
    ∧ (∀ i, verifySigAt (buildChain [] actions) i = true
        ∧ verifyPrevAt (buildChain [] actions) i = true)
    ∧ verifySigAt ((buildChain [] actions).set k e') k = false
    ∧ (k + 1 < (buildChain [] actions).length →
        verifyPrevAt ((buildChain [] actions).set k e') (k + 1) = false)
    ∧ (∀ j, j < k → verifySigAt ((buildChain [] actions).set k e') j = true
        ∧ verifyPrevAt ((buildChain [] actions).set k e') j = true)
    ∧ (∀ j, k + 1 < j → verifyPrevAt ((buildChain [] actions).set k e') j = true)
    ∧ (∀ j, k < j → verifySigAt ((buildChain [] actions).set k e') j = true)
    ∧ (∀ j, k ≤ j → chainValidUpTo ((buildChain [] actions).set k e') j = false) := by
  have hInv : ChainInv (buildChain [] actions) := chainInv_buildChain actions [] chainInv_nil
  have hk : k < (buildChain [] actions).length := nth_some_lt _ k e he
  have hsigk : verifySigAt ((buildChain [] actions).set k e') k = false := by
    have h2 : nthEntry ((buildChain [] actions).set k e') k = some e' :=
      nth_set_self _ _ _ hk
    have hne := oneFieldFlip_sig e e' (hInv.1 k e he) hflip
    simp [verifySigAt, h2, hne]
  refine ⟨hInv.2.1, hInv.2.2, fun i => chainInv_verify _ hInv i, hsigk, ?_, ?_, ?_, ?_, ?_⟩
  · intro hk1
    obtain ⟨f, hf⟩ := nth_lt_isSome _ (k + 1) hk1
    have h1 : nthEntry ((buildChain [] actions).set k e') (k + 1) = some f := by
      rw [nth_set_ne _ _ _ _ (by omega)]
      exact hf
    have h2 : nthEntry ((buildChain [] actions).set k e') k = some e' :=
      nth_set_self _ _ _ hk
    have hlink : f.previous_hash = hashEntry e := hInv.2.2 k f e hf he
    have hne : e ≠ e' := oneFieldFlip_ne e e' hflip
    have hneq : ¬ f.previous_hash = hashEntry e' := by
      rw [hlink]
      intro hcon
      exact hne (hashEntry_inj e e' hcon)
    simp [verifyPrevAt, h1, h2, hneq]
  · intro j hj
    rw [verifySigAt_set_ne _ _ _ _ (by omega),
      verifyPrevAt_set_ne _ _ _ _ (by omega) (fun m hm => by omega)]
    exact chainInv_verify _ hInv j
  · intro j hj
    rw [verifyPrevAt_set_ne _ _ _ _ (by omega) (fun m hm => by omega)]
    exact (chainInv_verify _ hInv j).2
  · intro j hj
    rw [verifySigAt_set_ne _ _ _ _ (by omega)]
    exact (chainInv_verify _ hInv j).1
  · intro j hj
    cases hall : chainValidUpTo ((buildChain [] actions).set k e') j
    · rfl
    · exfalso
      have hmem : k ∈ List.range (j + 1) := List.mem_range.mpr (by omega)
      have := List.all_eq_true.mp hall k hmem
      rw [Bool.and_eq_true] at this
      rw [hsigk] at this
      exact Bool.noConfusion this.1

/-- C8 counterexample to the claim as stated: in the three-entry chain with
a one-byte flip in entry 0's details, previous-hash verification fails for
entry 1 but passes again for entry 2 — it does not fail for every entry from
`k + 1` onward. -/
theorem C8_onward_counterexample :
    nthEntry chain3 0 = some entry0
    ∧ oneFieldFlip entry0 e0Flipped
    ∧ verifySigAt chain3T 0 = false
    ∧ verifyPrevAt chain3T 1 = false
    ∧ verifyPrevAt chain3T 2 = true
    ∧ verifySigAt chain3T 2 = true := by
  refine ⟨rfl, by decide, by decide, by decide, by decide, by decide⟩

/-- C8 witness: the amended theorem applied to the concrete tampered chain. -/
theorem C8_audit_chain_tamper_witness :
    verifySigAt chain3T 0 = false
    ∧ verifyPrevAt chain3T 1 = false
    ∧ chainValidUpTo chain3T 2 = false := by
  have h := C8_audit_chain_tamper actions3 0 entry0 e0Flipped rfl (by decide)
  exact ⟨h.2.2.2.1, h.2.2.2.2.1 (by decide), h.2.2.2.2.2.2.2.2 2 (by omega)⟩

/-- C3 witness: the state machine theorem applied to the timed-out create
run, discharging the error hypothesis at its concrete message. -/
theorem C3_state_machine_witness :
    (runWorkflow envTimeout).status = .failed
    ∧ ("CRITICAL ERROR: Timed out waiting for vcluster kubeconfig generation")
        ∈ (runWorkflow envTimeout).logs := by
  exact (C3_state_machine envTimeout).2.2.2
    "Timed out waiting for vcluster kubeconfig generation" rfl

end Kortex
